import Mathlib

/-
Verification of the rustos-hv hypervisor core against its specification.

The definitions below are a shallow embedding of the Rust sources:

  * src/visor/src/param.rs            (constants)
  * src/visor/src/allocator/bin.rs    (bin allocator)
  * src/visor/src/traps/syndrome.rs   (ESR decoding)
  * src/visor/src/traps.rs            (exception handlers, MMIO emulation)
  * src/visor/src/traps/frame.rs      (trap frame)
  * src/visor/src/vm/pagetable.rs     (stage-1 / stage-2 page tables)
  * src/visor/src/vm.rs               (VTCR_EL2 / TCR_EL2 programming)
  * src/visor/src/process/process.rs  (process, VMID encoding)
  * src/visor/src/process/scheduler.rs (scheduler queue)

Machine integers are embedded as Nat with explicit `% 2^w` where the Rust
code relies on wrapping or truncating casts.  Rust panics and failed
asserts are embedded as `Option.none`.
-/

namespace RustosHv

/-! ## Constants (src/visor/src/param.rs) -/

def PAGE_ALIGN : Nat := 16

def PAGE_SIZE : Nat := 64 * 1024

def GUEST_MASK_BITS : Nat := 34

def VISOR_MASK_BITS : Nat := 32

def KERN_START_ADDR : Nat := 0x80000

def GUEST_MAX_VM_SIZE : Nat := 0x10000000

/-- Modelled from the spec: the peripheral MMIO window `[IO_BASE, IO_BASE_END)`
of the Raspberry Pi 3 BCM2837 (the defining crate `pi::common` is not under
src/; the spec fixes the peripheral layout as bit-exact against the BCM2837,
whose 16 MiB peripheral window starts at 0x3F000000). -/
def IO_BASE : Nat := 0x3F000000

/-- Modelled from the spec: end of the BCM2837 peripheral window. -/
def IO_BASE_END : Nat := 0x40000000

/-! ## Bit-field accessors

Modelled from the spec: the Rust sources declare bit-field layouts with the
`defbit!` macro of the `aarch64` crate (the macro body is not under src/).
The spec fixes the semantics: a field declared `NAME [hi-lo]` denotes bits
`[hi:lo]` of the underlying 64-bit word, reads return the field value
shifted down to bit 0, and writes replace exactly those bits (spec section 3
"Raw Entry", section 4.8 field table, and the testable property that
`iss.get(DataAbortSyndrome::*)` equals the corresponding sub-field).
`getField v lo w` reads the w-bit field at bit lo; `setField v lo w x`
replaces it by `x` (truncated to w bits), leaving all other bits
unchanged. -/
def getField (v lo w : Nat) : Nat := v / 2 ^ lo % 2 ^ w

/-- Modelled from the spec: bit-field update, see `getField`. -/
def setField (v lo w x : Nat) : Nat :=
  v / 2 ^ (lo + w) * 2 ^ (lo + w) + x % 2 ^ w * 2 ^ lo + v % 2 ^ lo

/-! ## Alignment utilities

The visor crate declares `pub mod util` (src/visor/src/main.rs); the module
file itself is not present under src/visor, but the same repository ships the
identical utility module at src/kern/src/allocator/util.rs, from which these
are embedded.  `align_down` and `align_up` panic unless `align` is a power of
two; for a power of two `align`, `addr & !(align - 1) = addr - addr % align`. -/

def isPow2 (n : Nat) : Bool := n != 0 && n &&& (n - 1) == 0

def align_down (addr align : Nat) : Option Nat :=
  if isPow2 align then some (addr - addr % align) else none

def align_up (addr align : Nat) : Option Nat :=
  align_down (addr + (align - 1)) align

def is_aligned (addr align : Nat) : Bool := addr &&& (align - 1) == 0

/-! ## Bin allocator (src/visor/src/allocator/bin.rs)

`bins` is the array of thirty free lists; each list is kept in `LinkedList`
iteration order (most recently pushed first).  `top_start, top_end` delimit
the top chunk.  Rust panics become `none`; a returned pointer value 0 is the
null pointer. -/

structure Allocator where
  bins : List (List Nat)
  top_start : Nat
  top_end : Nat
deriving DecidableEq

/-- Iteration count of `u32::leading_zeros`: number of binary digits of `n`,
computed with explicit fuel so that it reduces in the kernel.  With fuel ≥ 32
and `n < 2^32` this is the exact bit length. -/
def bitLenAux : Nat → Nat → Nat
  | 0, _ => 0
  | fuel + 1, n => if n = 0 then 0 else bitLenAux fuel (n / 2) + 1

/-- Embedding of `u32::leading_zeros` (callers truncate the argument to 32
bits first, as the Rust cast does). -/
def leadingZeros32 (x : Nat) : Nat := 32 - bitLenAux 32 x

/-- `size_to_bin`; `none` embeds the panic on size 0.  The Rust source
computes `29usize.saturating_sub(((size - 1) as u32).leading_zeros())`; the
`as u32` cast truncates to the low 32 bits. -/
def size_to_bin (size : Nat) : Option Nat :=
  if size = 0 then none
  else some (29 - leadingZeros32 ((size - 1) % 2 ^ 32))

/-- `bin_to_size`; `none` embeds the panic on bin > 29. -/
def bin_to_size (bin : Nat) : Option Nat :=
  if bin > 29 then none else some (2 ^ (bin + 3))

/-- `Allocator::insert_chunk`.  The Rust recursion strictly increases `bin`,
which is capped at 29, so any fuel ≥ 30 is enough; the wrapper below passes
31.  The linked-list scan takes the first node adjacent to the freed chunk
(either side); popping it is `List.erase` of that value (duplicates cannot
occur earlier in the list, as they would satisfy the same predicate). -/
def insertChunkAux : Nat → Allocator → Nat → Nat → Option Allocator
  | 0, _, _, _ => none
  | fuel + 1, a, ptr, bin =>
    if bin > 29 then none
    else
      let size := 2 ^ (bin + 3)
      if ptr + size = a.top_start then
        some { a with top_start := ptr }
      else if bin < 29 then
        match (a.bins.getD bin []).find?
            (fun other => ptr + size == other || other + size == ptr) with
        | some other =>
          let a1 := { a with bins := a.bins.set bin ((a.bins.getD bin []).erase other) }
          if ptr + size = other then insertChunkAux fuel a1 ptr (bin + 1)
          else insertChunkAux fuel a1 other (bin + 1)
        | none =>
          some { a with bins := a.bins.set bin (ptr :: a.bins.getD bin []) }
      else
        some { a with bins := a.bins.set bin (ptr :: a.bins.getD bin []) }

def insert_chunk (a : Allocator) (ptr bin : Nat) : Option Allocator :=
  insertChunkAux 31 a ptr bin

/-- Loop body of `Allocator::rebin`: walk the bits of `size >> 3` from LSB to
MSB, emitting one chunk per set bit.  Returns the final `ptr` so the caller
can check the source's `assert_eq!(ptr, ptr_check)`.  The loop runs
`bitlen (size >> 3)` times, so fuel = initial `size >> 3` is enough.  The
source advances `ptr` by `bin_to_size(i)`, which cannot panic there because
the preceding `insert_chunk` succeeded, forcing `i ≤ 29`. -/
def rebinLoop : Nat → Allocator → Nat → Nat → Nat → Option (Allocator × Nat)
  | 0, a, ptr, size, _ => if size = 0 then some (a, ptr) else none
  | fuel + 1, a, ptr, size, i =>
    if size = 0 then some (a, ptr)
    else if size &&& 1 ≠ 0 then
      match insert_chunk a ptr i with
      | none => none
      | some a1 => rebinLoop fuel a1 (ptr + 2 ^ (i + 3)) (size >>> 1) (i + 1)
    else rebinLoop fuel a ptr (size >>> 1) (i + 1)

/-- `Allocator::rebin`. -/
def rebin (a : Allocator) (ptr size : Nat) : Option Allocator :=
  if size = 0 then some a
  else if is_aligned ptr 8 = false ∨ size < 8 ∨ is_aligned size 8 = false then none
  else
    match rebinLoop (size >>> 3) a ptr (size >>> 3) 0 with
    | none => none
    | some (a1, ptrEnd) => if ptrEnd = ptr + size then some a1 else none

/-- The bin scan of `Allocator::alloc`: `for i in size_to_bin(size)..=29`,
find the first free chunk in bin `i` whose address meets the requested
(unclamped) alignment; pop it and re-bin the tail beyond `size` bytes.
The outer `none` embeds a panic, `some none` means no bin had a fitting
chunk. -/
def scanBins (a : Allocator) (size alignL : Nat) :
    List Nat → Option (Option (Nat × Allocator))
  | [] => some none
  | i :: rest =>
    match (a.bins.getD i []).find? (fun node => is_aligned node alignL) with
    | some chunk =>
      let a1 := { a with bins := a.bins.set i ((a.bins.getD i []).erase chunk) }
      match rebin a1 (chunk + size) (2 ^ (i + 3) - size) with
      | none => none
      | some a2 => some (some (chunk, a2))
    | none => scanBins a size alignL rest

/-- `Allocator::alloc` over a `Layout` of `size0` bytes with alignment
`alignL`.  Returns `some (ptr, state)` where `ptr = 0` is the null pointer;
`none` embeds a panic. -/
def allocatorAlloc (a : Allocator) (size0 alignL : Nat) : Option (Nat × Allocator) :=
  if size0 = 0 then some (0, a)
  else
    let align := max 8 alignL
    match size_to_bin size0 with
    | none => none
    | some b0 =>
      let size := 2 ^ (b0 + 3)
      match size_to_bin size with
      | none => none
      | some b =>
        match scanBins a size alignL (List.range' b (30 - b)) with
        | none => none
        | some (some (chunk, a2)) => some (chunk, a2)
        | some none =>
          match align_up a.top_start align with
          | none => none
          | some chunk_start =>
            match rebin a a.top_start (chunk_start - a.top_start) with
            | none => none
            | some a1 =>
              let a2 := { a1 with top_start := chunk_start }
              if a2.top_start + size > a2.top_end then some (0, a2)
              else
                let a3 := { a2 with top_start := a2.top_start + size }
                if is_aligned a3.top_start 8 then some (chunk_start, a3) else none

/-! ## Page tables (src/visor/src/vm/pagetable.rs)

`PageTable.entries` lists the raw 64-bit descriptors of the two L3 tables
back to back: the source slot `l3[l2index].entries[l3index]` is
`entries[l2index * 8192 + l3index]`.  The L2 table holds only the two table
pointers installed at construction and no claim concerns it. -/

structure PageTable where
  entries : List Nat
deriving DecidableEq

/-- `PageTable::locate`: (L2 index, L3 index) of a virtual address; `none`
embeds the panics on unaligned addresses and on L2 index ≥ 2. -/
def locate (va : Nat) : Option (Nat × Nat) :=
  if va &&& (PAGE_SIZE - 1) ≠ 0 then none
  else
    let l3index := (va >>> PAGE_ALIGN) &&& 8191
    let l2index := (va >>> 29) &&& 8191
    if l2index ≥ 2 then none else some (l2index, l3index)

def getEntry (pt : PageTable) (va : Nat) : Option Nat :=
  match locate va with
  | none => none
  | some (l2i, l3i) => some (pt.entries.getD (l2i * 8192 + l3i) 0)

def setEntry (pt : PageTable) (va e : Nat) : Option PageTable :=
  match locate va with
  | none => none
  | some (l2i, l3i) => some ⟨pt.entries.set (l2i * 8192 + l3i) e⟩

/-- `L3Entry::is_valid`: VALID is bit 0 of the raw entry. -/
def entryIsValid (e : Nat) : Bool := getField e 0 1 == 1

def EntryPerm_KERN_RW : Nat := 0b00

def Stage2EntryPerm_READWRITE : Nat := 0b11

/-- `VisorPageTable::new_l3pte`: stage-1 L3 descriptor (RawEntry layout of
src/lib/aarch64/src/vmsa.rs: ADDR[47:16] AF[10] SH[9:8] AP[7:6] NS[5]
ATTR[4:2] TYPE[1] VALID[0]); field writes in source order. -/
def new_l3pte (va : Nat) (device : Bool) : Nat :=
  let pte := setField 0 16 32 (va >>> PAGE_ALIGN)
  let pte := setField pte 0 1 1
  let pte := setField pte 1 1 1
  let pte := setField pte 2 3 (if device then 0b001 else 0b000)
  let pte := setField pte 6 2 EntryPerm_KERN_RW
  let pte := setField pte 8 2 (if device then 0b10 else 0b11)
  setField pte 10 1 1

/-- The stage-2 L3 descriptor built inside `GuestPageTable::alloc`
(RawStage2Entry layout: ADDR[47:16] AF[10] SH[9:8] S2AP[7:6] CACHE[5:4]
ATTR[3:2] TYPE[1] VALID[0]); field writes in source order. -/
def stage2_l3pte (buf : Nat) : Nat :=
  let pte := setField 0 16 32 (buf >>> PAGE_ALIGN)
  let pte := setField pte 0 1 1
  let pte := setField pte 1 1 1
  let pte := setField pte 4 2 0b11
  let pte := setField pte 2 2 0b11
  let pte := setField pte 6 2 Stage2EntryPerm_READWRITE
  let pte := setField pte 8 2 0b11
  setField pte 10 1 1

inductive PagePerm | RW | RO | RWX
deriving DecidableEq

/-- `GuestPageTable::alloc`: allocate one Page (`Page::layout()` is
PAGE_SIZE bytes, PAGE_SIZE aligned), panic on null or on an already-valid
slot, install the stage-2 descriptor.  `_perm` is received but unused by the
source (marked TODO there).  The final `VMM.mark_noncacheable(buf)` updates
a cacheability attribute in the hypervisor stage-1 table only and does not
touch the stage-2 state modelled here. -/
def guestAlloc (pt : PageTable) (alloc : Allocator) (va : Nat) (_perm : PagePerm) :
    Option (Nat × PageTable × Allocator) :=
  match allocatorAlloc alloc PAGE_SIZE PAGE_SIZE with
  | none => none
  | some (buf, a1) =>
    if buf = 0 then none
    else match getEntry pt va with
    | none => none
    | some e =>
      if entryIsValid e then none
      else match setEntry pt va (stage2_l3pte buf) with
        | none => none
        | some pt1 => some (buf, pt1, a1)

/-! ## Syndrome decoding (src/visor/src/traps/syndrome.rs) -/

inductive Fault where
  | AddressSize
  | Translation
  | AccessFlag
  | Permission
  | Alignment
  | TlbConflict
  | Other (x : Nat)
deriving DecidableEq

/-- `impl From<u32> for Fault`: match on `(val >> 2) & 0b1111`.  The Rust
`match` arms are mutually exclusive literals, rendered as an if chain. -/
def Fault.ofNat (val : Nat) : Fault :=
  let x := (val >>> 2) &&& 0b1111
  if x = 0b0000 then .AddressSize
  else if x = 0b0001 then .Translation
  else if x = 0b0010 then .AccessFlag
  else if x = 0b0011 then .Permission
  else if x = 0b0100 ∨ x = 0b1000 then .Alignment
  else if x = 0b1100 then .TlbConflict
  else .Other x

/-- Field readers of the `DataAbortSyndrome` defbit declaration (the bit
ranges are those written in src/visor/src/traps/syndrome.rs; the accessor
semantics is `getField`, see above). -/
def ISS_ISV (v : Nat) : Nat := getField v 24 1

def ISS_SAS (v : Nat) : Nat := getField v 22 2

def ISS_SSE (v : Nat) : Nat := getField v 21 1

def ISS_SRT (v : Nat) : Nat := getField v 16 5

def ISS_SF (v : Nat) : Nat := getField v 15 1

def ISS_AR (v : Nat) : Nat := getField v 14 1

def ISS_SET (v : Nat) : Nat := getField v 11 2

def ISS_FnV (v : Nat) : Nat := getField v 10 1

def ISS_EA (v : Nat) : Nat := getField v 9 1

def ISS_CM (v : Nat) : Nat := getField v 8 1

def ISS_S1PTW (v : Nat) : Nat := getField v 7 1

def ISS_WnR (v : Nat) : Nat := getField v 6 1

def ISS_DFSC (v : Nat) : Nat := getField v 0 6

inductive Syndrome where
  | Unknown (esr : Nat)
  | WfiWfe
  | SimdFp
  | IllegalExecutionState
  | Svc (x : Nat)
  | Hvc (x : Nat)
  | Smc (x : Nat)
  | MsrMrsSystem
  | InstructionAbort (kind : Fault) (level : Nat)
  | PCAlignmentFault
  | DataAbort (kind : Fault) (level : Nat) (iss : Nat)
  | SpAlignmentFault
  | TrappedFpu
  | SError
  | Breakpoint
  | Step
  | Watchpoint
  | Brk (x : Nat)
  | Other (esr : Nat)
deriving DecidableEq

/-- `impl From<u32> for Syndrome`: match on `ec = esr >> 26`; `esr as u16`
is `esr % 2^16`, and the data-abort ISS keeps `esr as u64 & 0x1FFFFFF`.
The Rust `match` arms are mutually exclusive literals, rendered as an if
chain in source order. -/
def Syndrome.ofEsr (esr : Nat) : Syndrome :=
  let ec := esr >>> 26
  if ec = 0b000000 then .Unknown esr
  else if ec = 0b000001 then .WfiWfe
  else if ec = 0b000111 then .SimdFp
  else if ec = 0b001110 then .IllegalExecutionState
  else if ec = 0b010001 ∨ ec = 0b010101 then .Svc (esr % 2 ^ 16)
  else if ec = 0b010010 ∨ ec = 0b010110 then .Hvc (esr % 2 ^ 16)
  else if ec = 0b010011 ∨ ec = 0b010111 then .Smc (esr % 2 ^ 16)
  else if ec = 0b011000 then .MsrMrsSystem
  else if ec = 0b100000 ∨ ec = 0b100001 then
    .InstructionAbort (Fault.ofNat (esr &&& 0b111111)) (esr &&& 0b11)
  else if ec = 0b100010 then .PCAlignmentFault
  else if ec = 0b100100 ∨ ec = 0b100101 then
    .DataAbort (Fault.ofNat (esr &&& 0b111111)) (esr &&& 0b11) (esr &&& 0x1FFFFFF)
  else if ec = 0b100110 then .SpAlignmentFault
  else if ec = 0b101100 ∨ ec = 0b101000 then .TrappedFpu
  else if ec = 0b101111 then .SError
  else if ec = 0b110000 ∨ ec = 0b110001 ∨ ec = 0b111000 then .Breakpoint
  else if ec = 0b110010 ∨ ec = 0b110011 then .Step
  else if ec = 0b110100 ∨ ec = 0b110101 then .Watchpoint
  else if ec = 0b111100 then .Brk (esr % 2 ^ 16)
  else .Other esr

/-- `Syndrome::get_abort_info`. -/
def Syndrome.get_abort_info : Syndrome → Option (Fault × Nat)
  | .InstructionAbort kind level => some (kind, level)
  | .DataAbort kind level _ => some (kind, level)
  | _ => none

/-! ## Trap frame (src/visor/src/traps/frame.rs)

Register values are 64-bit (`qn` entries 128-bit); the embedding stores Nat
and applies `% 2^w` exactly where the Rust code truncates. -/

structure TrapFrame where
  VTTBR : Nat
  ELR : Nat
  TTBR0_EL1 : Nat
  TTBR1_EL1 : Nat
  SP_EL0 : Nat
  SP_EL1 : Nat
  SCTLR_EL1 : Nat
  VBAR_EL1 : Nat
  TPIDR_EL0 : Nat
  TPIDR_EL1 : Nat
  SPSR_EL1 : Nat
  pad1 : Nat
  qn : List Nat
  xn : List Nat
deriving DecidableEq

/-! ## MMIO emulation (src/visor/src/traps.rs, `handle_mmio`)

Device memory is a byte map (ARM little-endian): `memRead mem a n` reads the
`n`-byte little-endian value at `a`; `memWrite mem a n v` stores the low `n`
bytes of `v`. -/

def Mem : Type := Nat → Nat

def memRead (mem : Mem) (addr : Nat) : Nat → Nat
  | 0 => 0
  | n + 1 => mem addr % 256 + 256 * memRead mem (addr + 1) n

def memWrite (mem : Mem) (addr : Nat) : Nat → Nat → Mem
  | 0, _ => mem
  | n + 1, v =>
    memWrite (fun a => if a = addr then v % 256 else mem a) (addr + 1) n (v / 256)

/-- Sign extension of a `w`-bit value `v < 2^w` to 64 bits (`as i8/i16/i32
as u64` in the Rust match arms; identity when w = 64). -/
def sext64 (v w : Nat) : Nat := if 2 ^ (w - 1) ≤ v then v + (2 ^ 64 - 2 ^ w) else v

/-- `handle_mmio`: decode the data-abort ISS and perform the access against
device memory; `none` embeds the failed entry assert (the dispatcher only
calls it with `IO_BASE <= fault_addr < IO_BASE_END`).  The `unreachable!`
arms cannot fire: SAS is a 2-bit field, so `2 ^ access_size` covers exactly
the four widths 1, 2, 4, 8 bytes. -/
def handleMmio (mem : Mem) (fault_addr iss : Nat) (tf : TrapFrame) :
    Option (Mem × TrapFrame) :=
  if fault_addr < IO_BASE ∨ IO_BASE_END ≤ fault_addr then none
  else
    let sext := ISS_SSE iss = 1
    let regno := ISS_SRT iss
    let write := ISS_WnR iss = 1
    let reg64 := ISS_SF iss = 1
    let access_size := ISS_SAS iss
    if write then
      let data := tf.xn.getD regno 0
      let data := if reg64 then data else data &&& 0xFFFFFFFF
      some (memWrite mem fault_addr (2 ^ access_size) data,
            { tf with ELR := (tf.ELR + 4) % 2 ^ 64 })
    else
      let raw := memRead mem fault_addr (2 ^ access_size)
      let data := if sext then sext64 raw (8 * 2 ^ access_size) else raw
      let newv := if reg64 then data
        else tf.xn.getD regno 0 &&& 0xFFFFFFFF00000000 ||| data &&& 0xFFFFFFFF
      some (mem, { tf with xn := tf.xn.set regno newv,
                           ELR := (tf.ELR + 4) % 2 ^ 64 })

/-! ## Lower-EL synchronous exception handler
(src/visor/src/traps.rs, `handle_lower_el_synchronous`)

The handler operates on the faulting process resolved through
`SCHEDULER.get_by_vmid`, whose implementation returns the front-of-queue
process unconditionally (src/visor/src/process/scheduler.rs); `HState`
carries exactly that process's stage-2 table and the global allocator,
together with the trap frame.  Console printing has no modelled effect; the
debug-shell path is the `fatal` outcome. -/

structure HState where
  pt : PageTable
  alloc : Allocator
  tf : TrapFrame
deriving DecidableEq

inductive HOutcome where
  | lazy
  | emulated
  | fatal
deriving DecidableEq

/-- The `match syndrome` statement of `handle_lower_el_synchronous` that
runs when the lazy-paging branch did not return: MMIO emulation for valid
ISS translation data aborts in the peripheral window, the debug shell
(`fatal`) everywhere else. -/
def handleTranslationMmio (syndrome : Syndrome) (far hpfar : Nat)
    (st : HState) (mem : Mem) : Option (HOutcome × HState × Mem) :=
  match syndrome with
  | Syndrome.DataAbort kind _ iss =>
    if kind = Fault.Translation then
      if ISS_ISV iss = 0 then none
      else if ISS_CM iss = 0 then
        let fault_addr := if ISS_FnV iss ≠ 0 then (hpfar >>> 4) <<< 12 else far
        if IO_BASE ≤ fault_addr ∧ fault_addr < IO_BASE_END then
          match handleMmio mem fault_addr iss st.tf with
          | none => none
          | some (mem1, tf1) =>
            some (HOutcome.emulated, { st with tf := tf1 }, mem1)
        else some (HOutcome.fatal, st, mem)
      else some (HOutcome.fatal, st, mem)
    else some (HOutcome.fatal, st, mem)
  | _ => some (HOutcome.fatal, st, mem)

def handleLowerElSynchronous (syndrome : Syndrome) (far hpfar : Nat)
    (st : HState) (mem : Mem) : Option (HOutcome × HState × Mem) :=
  let afterAbortCheck : Option (Option (HOutcome × HState × Mem)) :=
    match syndrome.get_abort_info with
    | some (kind, _) =>
      if kind = Fault.AccessFlag ∨ kind = Fault.Translation then
        let translation_fault_addr := (hpfar >>> 4) <<< 12
        match align_down translation_fault_addr PAGE_SIZE with
        | none => none
        | some fault_page =>
          if translation_fault_addr < GUEST_MAX_VM_SIZE then
            match getEntry st.pt fault_page with
            | none => none
            | some e =>
              if entryIsValid e = false then
                match guestAlloc st.pt st.alloc fault_page PagePerm.RWX with
                | none => none
                | some (_, pt1, a1) =>
                  some (some (HOutcome.lazy, { st with pt := pt1, alloc := a1 }, mem))
              else some none
          else some none
      else some none
    | none => some none
  match afterAbortCheck with
  | none => none
  | some (some r) => some r
  | some none => handleTranslationMmio syndrome far hpfar st mem

/-! ## Processes and scheduler (src/visor/src/process/) -/

inductive PState where
  | Ready
  | Running
  | Waiting
  | Dead
deriving DecidableEq

/-- `Process`: the trap frame plus the scheduling state.  The owned
`GuestPageTable` takes no part in the scheduler claims and is omitted here
(the stage-2 table is modelled separately for the fault-handler claims).
`State::Waiting` carries a polling closure in the source, irrelevant to the
VMID claims. -/
structure Process where
  context : TrapFrame
  state : PState
deriving DecidableEq

/-- Process IDs (`type Id = u8`). -/
def IdMax : Nat := 255

/-- `Process::set_vmid`:
`context.VTTBR = (VTTBR & 0x0000FFFFFFFFFFFF) | ((vmid as u64) << 48)`. -/
def Process.set_vmid (p : Process) (vmid : Nat) : Process :=
  { p with context :=
      { p.context with
        VTTBR := p.context.VTTBR &&& 0x0000FFFFFFFFFFFF ||| vmid <<< 48 } }

/-- `Process::get_vmid`.  Modelled from the spec: it reads the VMID through
the `defreg!`-generated `VTTBR_EL2::get_masked` accessor (macro body not
under src/); the spec fixes that the VMID is encoded in — and read back
from — bits [55:48] of VTTBR. -/
def Process.get_vmid (p : Process) : Nat := getField p.context.VTTBR 48 8

structure Scheduler where
  processes : List Process
  last_id : Nat
deriving DecidableEq

/-- `Scheduler::new`. -/
def Scheduler.new : Scheduler := { processes := [], last_id := 0 }

/-- `Scheduler::add`: assign `vmid = last_id`, push to the back of the
queue, then `last_id.checked_add(1).expect(..)` — the panic on u8 overflow
(last_id = 255) is `none`. -/
def Scheduler.add (s : Scheduler) (p : Process) : Option (Scheduler × Nat) :=
  let vmid := s.last_id
  let p1 := p.set_vmid vmid
  let procs := s.processes ++ [p1]
  if s.last_id + 1 > IdMax then none
  else some ({ processes := procs, last_id := s.last_id + 1 }, vmid)

/-- A sequence of `add` calls (panic propagates). -/
def Scheduler.addAll (s : Scheduler) : List Process → Option Scheduler
  | [] => some s
  | p :: ps =>
    match s.add p with
    | none => none
    | some (s1, _) => s1.addAll ps

/-- `Scheduler::get_by_vmid`: `Some(&mut self.processes[0])` regardless of
the argument; indexing an empty `VecDeque` panics (`none`). -/
def Scheduler.get_by_vmid (s : Scheduler) (_vmid : Nat) : Option Process :=
  s.processes.head?

/-! ## Translation control register values (src/visor/src/vm.rs,
`VMManager::setup`).  `ips` is the 4-bit PARange field read from
ID_AA64MMFR0_EL1. -/

/-- The value `VMManager::setup` stores to TCR_EL2. -/
def tcrValue (ips : Nat) : Nat :=
  1 <<< 31 ||| 1 <<< 23 ||| 0b00 <<< 20 ||| ips <<< 16 ||| 0b01 <<< 14 |||
  0b11 <<< 12 ||| 0b01 <<< 10 ||| 0b01 <<< 8 ||| VISOR_MASK_BITS

/-- The value `VMManager::setup` stores to VTCR_EL2. -/
def vtcrValue (ips : Nat) : Nat :=
  1 <<< 31 ||| ips <<< 16 ||| 0b01 <<< 14 ||| 0b11 <<< 12 ||| 0b01 <<< 10 |||
  0b01 <<< 8 ||| 0b01 <<< 6 ||| GUEST_MASK_BITS

/-! ## Concrete states used by the witnesses -/

/-- An all-zero trap frame (register files of the architectural sizes),
used as concrete input by witnesses. -/
def zeroTrapFrame : TrapFrame :=
  ⟨0, 0, 0, 0, 0, 0, 0, 0, 0, 0, 0, 0, List.replicate 32 0, List.replicate 32 0⟩

def dummyProcess : Process := ⟨zeroTrapFrame, PState.Ready⟩

def schedWitness : Scheduler :=
  ⟨[dummyProcess.set_vmid 0, dummyProcess.set_vmid 1], 2⟩

/-- The major-class values matched by `Syndrome::from` (everything else
falls to `Other`). -/
def ecMatched : List Nat :=
  [0, 1, 7, 14, 17, 21, 18, 22, 19, 23, 24, 32, 33, 34, 36, 37, 38, 44, 40,
   47, 48, 49, 56, 50, 51, 52, 53, 60]

/-- Concrete trap frame for the load witness: prior
`x7 = 0xAAAAAAAA_CCCCCCCC`, as in the spec scenario. -/
def tfLoad : TrapFrame :=
  { zeroTrapFrame with
    ELR := 0x1000
    xn := (List.replicate 32 0).set 7 0xAAAAAAAACCCCCCCC }

/-- Device memory holding the little-endian word 0x80000001 at every
word-aligned address. -/
def memWord : Mem := fun a => if a % 4 = 3 then 0x80 else if a % 4 = 0 then 0x01 else 0

/-- Concrete trap frame for the store witness: `x5 = 0xDEADBEEF`, as in the
spec scenario. -/
def tfStore : TrapFrame :=
  { zeroTrapFrame with
    ELR := 0x1000
    xn := (List.replicate 32 0).set 5 0xDEADBEEF }

def memZero : Mem := fun _ => 0

def ptW : PageTable := ⟨List.replicate 16 0⟩

def alW : Allocator := ⟨List.replicate 30 [], 0x200000, 0x400000⟩

def ptW1 : PageTable := ⟨(List.replicate 16 0).set 9 (stage2_l3pte 0x200000)⟩

def alW1 : Allocator := ⟨List.replicate 30 [], 0x210000, 0x400000⟩

def stC1 : HState :=
  ⟨⟨List.replicate 16384 0⟩, ⟨List.replicate 30 [], 0x200000, 0x400000⟩, zeroTrapFrame⟩

def ptC1a : PageTable := ⟨(List.replicate 16384 0).set 9 (stage2_l3pte 0x200000)⟩

def alC1a : Allocator := ⟨List.replicate 30 [], 0x210000, 0x400000⟩

def ptC1b : PageTable :=
  ⟨((List.replicate 16384 0).set 9 (stage2_l3pte 0x200000)).set 10
    (stage2_l3pte 0x210000)⟩

def alC1b : Allocator := ⟨List.replicate 30 [], 0x220000, 0x400000⟩

def synC1 : Syndrome := Syndrome.DataAbort Fault.Translation 3 7

theorem getField_lt (v lo w : Nat) : getField v lo w < 2 ^ w :=
  Nat.mod_lt _ (Nat.two_pow_pos w)

theorem getField_eq_mod_div (v lo w : Nat) :
    getField v lo w = v % 2 ^ (lo + w) / 2 ^ lo := by
  rw [getField, ← Nat.mod_mul_right_div_self, pow_add]

theorem getField_setField_self (v lo w x : Nat) :
    getField (setField v lo w x) lo w = x % 2 ^ w := by
  have hA : 0 < 2 ^ lo := Nat.two_pow_pos lo
  unfold getField setField
  rw [pow_add]
  rw [show v / (2 ^ lo * 2 ^ w) * (2 ^ lo * 2 ^ w) + x % 2 ^ w * 2 ^ lo + v % 2 ^ lo
      = 2 ^ lo * (v / (2 ^ lo * 2 ^ w) * 2 ^ w + x % 2 ^ w) + v % 2 ^ lo from by ring]
  rw [Nat.mul_add_div hA, Nat.div_eq_of_lt (Nat.mod_lt _ hA), Nat.add_zero]
  rw [show v / (2 ^ lo * 2 ^ w) * 2 ^ w + x % 2 ^ w
      = 2 ^ w * (v / (2 ^ lo * 2 ^ w)) + x % 2 ^ w from by ring]
  rw [Nat.mul_add_mod, Nat.mod_mod_of_dvd _ dvd_rfl]

theorem setField_mod_eq (v lo2 w2 x k : Nat) (h : k ≤ lo2) :
    setField v lo2 w2 x % 2 ^ k = v % 2 ^ k := by
  obtain ⟨E1, hE1⟩ : (2 : Nat) ^ k ∣ 2 ^ (lo2 + w2) := pow_dvd_pow 2 (by omega)
  obtain ⟨E2, hE2⟩ : (2 : Nat) ^ k ∣ 2 ^ lo2 := pow_dvd_pow 2 h
  unfold setField
  rw [hE1, hE2]
  rw [show v / (2 ^ k * E1) * (2 ^ k * E1) + x % 2 ^ w2 * (2 ^ k * E2) + v % (2 ^ k * E2)
      = 2 ^ k * (v / (2 ^ k * E1) * E1 + x % 2 ^ w2 * E2) + v % (2 ^ k * E2) from by ring]
  rw [Nat.mul_add_mod]
  exact Nat.mod_mod_of_dvd v ⟨E2, rfl⟩

theorem getField_setField_below (v lo1 w1 lo2 w2 x : Nat) (h : lo1 + w1 ≤ lo2) :
    getField (setField v lo2 w2 x) lo1 w1 = getField v lo1 w1 := by
  rw [getField_eq_mod_div, getField_eq_mod_div, setField_mod_eq _ _ _ _ _ h]

theorem setField_div_high (v lo2 w2 x : Nat) :
    setField v lo2 w2 x / 2 ^ (lo2 + w2) = v / 2 ^ (lo2 + w2) := by
  have hB : x % 2 ^ w2 < 2 ^ w2 := Nat.mod_lt _ (Nat.two_pow_pos w2)
  have hA : v % 2 ^ lo2 < 2 ^ lo2 := Nat.mod_lt _ (Nat.two_pow_pos lo2)
  have hr : x % 2 ^ w2 * 2 ^ lo2 + v % 2 ^ lo2 < 2 ^ (lo2 + w2) := by
    have h1 : (x % 2 ^ w2 + 1) * 2 ^ lo2 ≤ 2 ^ w2 * 2 ^ lo2 :=
      Nat.mul_le_mul_right _ (Nat.succ_le_of_lt hB)
    rw [pow_add]
    calc x % 2 ^ w2 * 2 ^ lo2 + v % 2 ^ lo2
        < x % 2 ^ w2 * 2 ^ lo2 + 2 ^ lo2 := by omega
      _ = (x % 2 ^ w2 + 1) * 2 ^ lo2 := by ring
      _ ≤ 2 ^ w2 * 2 ^ lo2 := h1
      _ = 2 ^ lo2 * 2 ^ w2 := by ring
  unfold setField
  rw [show v / 2 ^ (lo2 + w2) * 2 ^ (lo2 + w2) + x % 2 ^ w2 * 2 ^ lo2 + v % 2 ^ lo2
      = 2 ^ (lo2 + w2) * (v / 2 ^ (lo2 + w2)) + (x % 2 ^ w2 * 2 ^ lo2 + v % 2 ^ lo2)
      from by ring]
  rw [Nat.mul_add_div (Nat.two_pow_pos _), Nat.div_eq_of_lt hr, Nat.add_zero]

theorem getField_setField_above (v lo1 w1 lo2 w2 x : Nat) (h : lo2 + w2 ≤ lo1) :
    getField (setField v lo2 w2 x) lo1 w1 = getField v lo1 w1 := by
  obtain ⟨E, hE⟩ : (2 : Nat) ^ (lo2 + w2) ∣ 2 ^ lo1 := pow_dvd_pow 2 h
  unfold getField
  rw [hE, ← Nat.div_div_eq_div_mul, ← Nat.div_div_eq_div_mul, setField_div_high]

theorem getField_mod_two_pow (v lo w k : Nat) (h : lo + w ≤ k) :
    getField (v % 2 ^ k) lo w = getField v lo w := by
  rw [getField_eq_mod_div, getField_eq_mod_div,
    Nat.mod_mod_of_dvd v (pow_dvd_pow 2 h)]

theorem or_div_pow (a b n : Nat) : (a ||| b) / 2 ^ n = a / 2 ^ n ||| b / 2 ^ n := by
  induction n with
  | zero => simp
  | succ k ih =>
    rw [pow_succ, ← Nat.div_div_eq_div_mul, ← Nat.div_div_eq_div_mul,
      ← Nat.div_div_eq_div_mul, ih, Nat.or_div_two]

theorem or_mod_pow (a b n : Nat) : (a ||| b) % 2 ^ n = a % 2 ^ n ||| b % 2 ^ n := by
  rw [← Nat.and_pow_two_sub_one_eq_mod, ← Nat.and_pow_two_sub_one_eq_mod,
    ← Nat.and_pow_two_sub_one_eq_mod, Nat.and_distrib_right]

theorem getField_or (a b lo w : Nat) :
    getField (a ||| b) lo w = getField a lo w ||| getField b lo w := by
  unfold getField
  rw [or_div_pow, or_mod_pow]


/-! ## Supporting lemmas for the allocator size classes -/

theorem bitLenAux_le_iff (fuel : Nat) :
    ∀ n, n < 2 ^ fuel → ∀ k, (bitLenAux fuel n ≤ k ↔ n < 2 ^ k) := by
  induction fuel with
  | zero =>
    intro n h k
    have hn : n = 0 := by simpa using h
    subst hn
    simp [bitLenAux, Nat.two_pow_pos]
  | succ f ih =>
    intro n h k
    by_cases hn : n = 0
    · subst hn; simp [bitLenAux, Nat.two_pow_pos]
    · rw [bitLenAux, if_neg hn]
      have hdiv : n / 2 < 2 ^ f := by
        rw [pow_succ] at h; omega
      cases k with
      | zero =>
        simp only [pow_zero]
        omega
      | succ k0 =>
        have hB := ih (n / 2) hdiv k0
        rw [pow_succ]
        omega

theorem size_to_bin_spec (n : Nat) (h1 : 1 ≤ n) (h2 : n ≤ 2 ^ 32) :
    ∃ k, size_to_bin n = some k ∧ k ≤ 29 ∧ n ≤ 2 ^ (k + 3) ∧
      ∀ j, n ≤ 2 ^ (j + 3) → k ≤ j := by
  have hlt : n - 1 < 2 ^ 32 := by omega
  have hmod : (n - 1) % 2 ^ 32 = n - 1 := Nat.mod_eq_of_lt hlt
  have hiff : ∀ k, bitLenAux 32 (n - 1) ≤ k ↔ n - 1 < 2 ^ k :=
    bitLenAux_le_iff 32 (n - 1) hlt
  set s := bitLenAux 32 (n - 1) with hs
  have hs32 : s ≤ 32 := (hiff 32).mpr hlt
  refine ⟨29 - (32 - s), ?_, by omega, ?_, ?_⟩
  · unfold size_to_bin leadingZeros32
    rw [if_neg (by omega), hmod]
  · by_cases hc : s ≤ 3
    · have h3 : n - 1 < 2 ^ 3 := (hiff 3).mp (by omega)
      have hk : 29 - (32 - s) = 0 := by omega
      rw [hk]
      norm_num at h3 ⊢
      omega
    · have hk : 29 - (32 - s) + 3 = s := by omega
      rw [hk]
      have := (hiff s).mp le_rfl
      omega
  · intro j hj
    have : s ≤ j + 3 := (hiff (j + 3)).mpr (by omega)
    omega

theorem size_to_bin_eq_pow_iff (n k : Nat) (h2 : n ≤ 2 ^ 32)
    (hub : n ≤ 2 ^ (k + 3)) (hmin : ∀ j, n ≤ 2 ^ (j + 3) → k ≤ j) :
    2 ^ (k + 3) = n ↔ ∃ m, 3 ≤ m ∧ n = 2 ^ m := by
  constructor
  · intro h
    exact ⟨k + 3, by omega, h.symm⟩
  · rintro ⟨m, hm3, hmn⟩
    have hle : k ≤ m - 3 := by
      apply hmin
      rw [show m - 3 + 3 = m from by omega]
      omega
    have hge : m ≤ k + 3 := by
      by_contra hlt
      push_neg at hlt
      have hpow : 2 ^ (k + 3 + 1) ≤ 2 ^ m := Nat.pow_le_pow_right (by omega) (by omega)
      have h2p : 2 ^ (k + 3) < 2 ^ (k + 3 + 1) := by
        rw [pow_succ]
        have := Nat.two_pow_pos (k + 3)
        omega
      omega
    have hmk : m = k + 3 := by omega
    rw [hmn, hmk]

/-- Claim C5: for n in the representable range, `size_to_bin n` is the
smallest k with `2^(k+3) ≥ n`, so `bin_to_size (size_to_bin n) ≥ n`, with
equality exactly when n is a power of two ≥ 8; `size_to_bin` panics on 0;
and the concrete values from the spec hold.  (The claim as frozen quantifies
over every usize; the `(size - 1) as u32` truncation makes it fail above
`2^32`, see the counterexample; this theorem carries the amended bound
`n ≤ 2^32`.) -/
theorem claim_C5 (n : Nat) (h1 : 1 ≤ n) (h2 : n ≤ 2 ^ 32) :
    size_to_bin 0 = none ∧
    (∀ i, i < 9 → 1 ≤ i → size_to_bin i = some 0) ∧
    (∀ i, i < 17 → 9 ≤ i → size_to_bin i = some 1) ∧
    size_to_bin 1234 = some 8 ∧
    bin_to_size 3 = some 64 ∧
    ∃ k, size_to_bin n = some k ∧ bin_to_size k = some (2 ^ (k + 3)) ∧
      n ≤ 2 ^ (k + 3) ∧ (∀ j, n ≤ 2 ^ (j + 3) → k ≤ j) ∧
      (2 ^ (k + 3) = n ↔ ∃ m, 3 ≤ m ∧ n = 2 ^ m) := by
  refine ⟨by decide, by decide, by decide, by decide, by decide, ?_⟩
  obtain ⟨k, hk, hk29, hub, hmin⟩ := size_to_bin_spec n h1 h2
  exact ⟨k, hk, by rw [bin_to_size, if_neg (by omega)], hub, hmin,
    size_to_bin_eq_pow_iff n k h2 hub hmin⟩

/-- Claim C5 counterexample: at n = 2^32 + 1 (a representable usize), the
code returns bin 0, whose size 8 is far below n — `size_to_bin n` is not the
smallest k with `2^(k+3) ≥ n`, and `bin_to_size (size_to_bin n) ≥ n` fails. -/
theorem claim_C5_counterexample :
    size_to_bin (2 ^ 32 + 1) = some 0 ∧ bin_to_size 0 = some 8 ∧
    ¬ (2 ^ 32 + 1 ≤ 2 ^ (0 + 3)) := by
  refine ⟨by decide, by decide, by decide⟩

/-- Claim C5 witness: the amended theorem applied at n = 1234. -/
theorem claim_C5_witness :
    (1 ≤ 1234 ∧ 1234 ≤ 2 ^ 32) ∧
    (size_to_bin 0 = none ∧
     (∀ i, i < 9 → 1 ≤ i → size_to_bin i = some 0) ∧
     (∀ i, i < 17 → 9 ≤ i → size_to_bin i = some 1) ∧
     size_to_bin 1234 = some 8 ∧
     bin_to_size 3 = some 64 ∧
     ∃ k, size_to_bin 1234 = some k ∧ bin_to_size k = some (2 ^ (k + 3)) ∧
       1234 ≤ 2 ^ (k + 3) ∧ (∀ j, 1234 ≤ 2 ^ (j + 3) → k ≤ j) ∧
       (2 ^ (k + 3) = 1234 ↔ ∃ m, 3 ≤ m ∧ 1234 = 2 ^ m)) :=
  ⟨⟨by decide, by decide⟩, claim_C5 1234 (by decide) (by decide)⟩

/-- Claim C10: allocating a zero-size layout returns the null pointer
immediately, with the allocator state (all bins and the top chunk) exactly
unchanged and no panic — the zero-size guard runs before any bin
computation, so the `size_to_bin` panic on 0 is unreachable. -/
theorem claim_C10 (a : Allocator) (alignL : Nat) :
    allocatorAlloc a 0 alignL = some (0, a) := rfl

/-- Claim C7 counterexample: `VMManager::setup` does not write
T0SZ = 64 − GUEST_MASK_BITS = 30 into bits [5:0] of the value stored to
VTCR_EL2; at PARange value 0 those bits hold 34. -/
theorem claim_C7_counterexample :
    getField (vtcrValue 0) 0 6 = 34 ∧ ¬ getField (vtcrValue 0) 0 6 = 30 := by
  refine ⟨by decide, by decide⟩

/-- Claim C7 (amended): `VMManager::setup` writes T0SZ = GUEST_MASK_BITS
= 34 (not 64 − GUEST_MASK_BITS) into bits [5:0] of the value stored to
VTCR_EL2, with 64 KiB granule TG0 = 0b01 (bits [15:14]) and stage-2 walks
starting at level 2, SL0 = 0b01 (bits [7:6]); and it writes T0SZ =
VISOR_MASK_BITS = 32 (which coincides with 64 − VISOR_MASK_BITS) into bits
[5:0] of the value stored to TCR_EL2 — for every PARange value `ips`. -/
theorem claim_C7 (ips : Nat) :
    getField (vtcrValue ips) 0 6 = GUEST_MASK_BITS ∧ GUEST_MASK_BITS = 34 ∧
    getField (vtcrValue ips) 14 2 = 0b01 ∧
    getField (vtcrValue ips) 6 2 = 0b01 ∧
    getField (tcrValue ips) 0 6 = VISOR_MASK_BITS ∧ VISOR_MASK_BITS = 32 := by
  have h06 : getField (ips <<< 16) 0 6 = 0 := by
    rw [Nat.shiftLeft_eq, getField]
    norm_num
    omega
  have h142 : getField (ips <<< 16) 14 2 = 0 := by
    rw [Nat.shiftLeft_eq, getField]
    norm_num
    omega
  have h62 : getField (ips <<< 16) 6 2 = 0 := by
    rw [Nat.shiftLeft_eq, getField]
    norm_num
    omega
  refine ⟨?_, rfl, ?_, ?_, ?_, rfl⟩
  · rw [vtcrValue, getField_or, getField_or, getField_or, getField_or,
      getField_or, getField_or, getField_or, h06]
    decide
  · rw [vtcrValue, getField_or, getField_or, getField_or, getField_or,
      getField_or, getField_or, getField_or, h142]
    decide
  · rw [vtcrValue, getField_or, getField_or, getField_or, getField_or,
      getField_or, getField_or, getField_or, h62]
    decide
  · rw [tcrValue, getField_or, getField_or, getField_or, getField_or,
      getField_or, getField_or, getField_or, getField_or, h06]
    decide

/-- Claim C9: `Scheduler::get_by_vmid` returns the process at the front of
the queue regardless of the vmid argument (the lookup is unimplemented:
`&mut self.processes[0]` with a TODO), panicking when the queue is empty —
so the stage-2 fault handler's owning-process lookup always resolves to the
front-of-queue process, even when that process's VMID differs from the
argument. -/
theorem claim_C9 (s : Scheduler) (v : Nat) :
    (∀ w, s.get_by_vmid v = s.get_by_vmid w) ∧
    (s.processes = [] → s.get_by_vmid v = none) ∧
    (∀ p ps, s.processes = p :: ps →
      (s.get_by_vmid v = some p ∧ (p.get_vmid ≠ v → s.get_by_vmid v = some p))) := by
  refine ⟨fun w => rfl, fun h => ?_, fun p ps h => ?_⟩
  · rw [Scheduler.get_by_vmid, h]
    rfl
  · rw [Scheduler.get_by_vmid, h]
    exact ⟨rfl, fun _ => rfl⟩

/-- Claim C9 witness: the theorem applied to a one-process queue with a
non-matching vmid argument and to the empty queue. -/
theorem claim_C9_witness :
    Scheduler.get_by_vmid ⟨[dummyProcess], 1⟩ 5 = some dummyProcess ∧
    Scheduler.get_by_vmid ⟨[], 0⟩ 3 = none :=
  ⟨((claim_C9 ⟨[dummyProcess], 1⟩ 5).2.2 dummyProcess [] rfl).1,
   (claim_C9 ⟨[], 0⟩ 3).2.1 rfl⟩

/-! ## VMID assignment -/

theorem get_vmid_set_vmid (p : Process) (v : Nat) (hv : v < 256) :
    (p.set_vmid v).get_vmid = v := by
  unfold Process.set_vmid Process.get_vmid
  simp only
  rw [getField_or]
  have h1 : getField (p.context.VTTBR &&& 0x0000FFFFFFFFFFFF) 48 8 = 0 := by
    rw [show (0x0000FFFFFFFFFFFF : Nat) = 2 ^ 48 - 1 from by norm_num,
      Nat.and_pow_two_sub_one_eq_mod, getField]
    have : p.context.VTTBR % 2 ^ 48 < 2 ^ 48 := Nat.mod_lt _ (by norm_num)
    norm_num
  have h2 : getField (v <<< 48) 48 8 = v := by
    rw [Nat.shiftLeft_eq, getField]
    norm_num
    omega
  rw [h1, h2, Nat.zero_or]

theorem addAll_vmids (ps : List Process) :
    ∀ s s1 : Scheduler, s.addAll ps = some s1 →
    s.last_id = s.processes.length →
    (∀ i, i < s.processes.length →
      (s.processes.getD i dummyProcess).get_vmid = i) →
    s1.last_id = s1.processes.length ∧
    ∀ i, i < s1.processes.length →
      (s1.processes.getD i dummyProcess).get_vmid = i := by
  induction ps with
  | nil =>
    intro s s1 h hlen hv
    rw [Scheduler.addAll] at h
    cases h
    exact ⟨hlen, hv⟩
  | cons p ps ih =>
    intro s s1 h hlen hv
    rw [Scheduler.addAll, Scheduler.add] at h
    by_cases hid : s.last_id + 1 > IdMax
    · rw [if_pos hid] at h
      cases h
    · rw [if_neg hid] at h
      simp only at h
      refine ih _ s1 h ?_ ?_
      · simp [hlen]
      · intro i hi
        simp only [List.length_append, List.length_cons, List.length_nil] at hi
        rcases Nat.lt_or_ge i s.processes.length with hlt | hge
        · rw [List.getD_append _ _ _ _ hlt]
          exact hv i hlt
        · have hieq : i = s.processes.length := by omega
          rw [List.getD_append_right _ _ _ _ hge, hieq]
          simp only [Nat.sub_self, List.getD_cons_zero]
          rw [get_vmid_set_vmid p s.last_id (by unfold IdMax at hid; omega), hlen]

/-- Claim C8: `Scheduler::add` assigns the process the VMID `last_id`
(written into bits [55:48] of the process's saved VTTBR), pushes it to the
back of the queue and increments `last_id`, panicking on u8 overflow; across
any sequence of `add` calls from a fresh scheduler the processes' VMIDs are
exactly their queue positions, hence pairwise distinct and strictly
increasing in assignment order. -/
theorem claim_C8 :
    (∀ (s : Scheduler) (p : Process), s.last_id = 255 → s.add p = none) ∧
    (∀ (s : Scheduler) (p : Process), s.last_id < 255 →
      s.add p = some ({ processes := s.processes ++ [p.set_vmid s.last_id],
                        last_id := s.last_id + 1 }, s.last_id) ∧
      (p.set_vmid s.last_id).get_vmid = s.last_id ∧
      (p.set_vmid s.last_id).context.VTTBR =
        p.context.VTTBR &&& 0x0000FFFFFFFFFFFF ||| s.last_id <<< 48) ∧
    (∀ (ps : List Process) (s1 : Scheduler), Scheduler.new.addAll ps = some s1 →
      (∀ i, i < s1.processes.length →
        (s1.processes.getD i dummyProcess).get_vmid = i) ∧
      (∀ i j, i < j → j < s1.processes.length →
        (s1.processes.getD i dummyProcess).get_vmid ≠
          (s1.processes.getD j dummyProcess).get_vmid ∧
        (s1.processes.getD i dummyProcess).get_vmid <
          (s1.processes.getD j dummyProcess).get_vmid)) := by
  refine ⟨?_, ?_, ?_⟩
  · intro s p h
    rw [Scheduler.add, if_pos (by unfold IdMax; omega)]
  · intro s p h
    refine ⟨by rw [Scheduler.add, if_neg (by unfold IdMax; omega)],
      get_vmid_set_vmid p s.last_id (by omega), rfl⟩
  · intro ps s1 h
    have hbase := addAll_vmids ps Scheduler.new s1 h rfl
      (by intro i hi; simp [Scheduler.new] at hi)
    refine ⟨hbase.2, ?_⟩
    intro i j hij hj
    rw [hbase.2 i (by omega), hbase.2 j hj]
    omega

/-- Claim C8 witness: the overflow panic at last_id = 255, and the VMID
layout after adding two processes to a fresh scheduler. -/
theorem claim_C8_witness :
    Scheduler.add ⟨[], 255⟩ dummyProcess = none ∧
    ((schedWitness.processes.getD 0 dummyProcess).get_vmid = 0 ∧
     (schedWitness.processes.getD 1 dummyProcess).get_vmid = 1) ∧
    (schedWitness.processes.getD 0 dummyProcess).get_vmid <
      (schedWitness.processes.getD 1 dummyProcess).get_vmid :=
  ⟨claim_C8.1 ⟨[], 255⟩ dummyProcess rfl,
   ⟨(claim_C8.2.2 [dummyProcess, dummyProcess] schedWitness (by decide)).1 0 (by decide),
    (claim_C8.2.2 [dummyProcess, dummyProcess] schedWitness (by decide)).1 1 (by decide)⟩,
   ((claim_C8.2.2 [dummyProcess, dummyProcess] schedWitness (by decide)).2 0 1
     (by decide) (by decide)).2⟩

theorem fault_arg (esr : Nat) : ((esr &&& 63) >>> 2) &&& 15 = (esr >>> 2) &&& 15 := by
  rw [show (63 : Nat) = 2 ^ 6 - 1 from by norm_num, Nat.and_pow_two_sub_one_eq_mod,
    show (15 : Nat) = 2 ^ 4 - 1 from by norm_num, Nat.and_pow_two_sub_one_eq_mod,
    Nat.and_pow_two_sub_one_eq_mod, Nat.shiftRight_eq_div_pow, Nat.shiftRight_eq_div_pow]
  norm_num
  omega

/-- Claim C4: for every 32-bit ESR, `Syndrome::from` selects the variant
determined by the major class `ec = esr >> 26` exactly as listed, with
unmatched classes mapping to `Other esr`; for aborts, the fault kind is
determined by ESR bits [5:2] per the table; and for a data abort the low 25
bits of ESR are preserved verbatim in the `DataAbortSyndrome`, so each named
ISS field equals the corresponding sub-field of those bits. -/
theorem claim_C4 (esr : Nat) (_hesr : esr < 2 ^ 32) :
    (esr >>> 26 = 0 → Syndrome.ofEsr esr = Syndrome.Unknown esr) ∧
    (esr >>> 26 = 1 → Syndrome.ofEsr esr = Syndrome.WfiWfe) ∧
    (esr >>> 26 = 7 → Syndrome.ofEsr esr = Syndrome.SimdFp) ∧
    (esr >>> 26 = 14 → Syndrome.ofEsr esr = Syndrome.IllegalExecutionState) ∧
    (esr >>> 26 = 17 ∨ esr >>> 26 = 21 →
      Syndrome.ofEsr esr = Syndrome.Svc (esr % 2 ^ 16)) ∧
    (esr >>> 26 = 18 ∨ esr >>> 26 = 22 →
      Syndrome.ofEsr esr = Syndrome.Hvc (esr % 2 ^ 16)) ∧
    (esr >>> 26 = 19 ∨ esr >>> 26 = 23 →
      Syndrome.ofEsr esr = Syndrome.Smc (esr % 2 ^ 16)) ∧
    (esr >>> 26 = 24 → Syndrome.ofEsr esr = Syndrome.MsrMrsSystem) ∧
    (esr >>> 26 = 32 ∨ esr >>> 26 = 33 →
      Syndrome.ofEsr esr =
        Syndrome.InstructionAbort (Fault.ofNat (esr &&& 63)) (esr &&& 3)) ∧
    (esr >>> 26 = 34 → Syndrome.ofEsr esr = Syndrome.PCAlignmentFault) ∧
    (esr >>> 26 = 36 ∨ esr >>> 26 = 37 →
      Syndrome.ofEsr esr =
        Syndrome.DataAbort (Fault.ofNat (esr &&& 63)) (esr &&& 3) (esr % 2 ^ 25)) ∧
    (esr >>> 26 = 38 → Syndrome.ofEsr esr = Syndrome.SpAlignmentFault) ∧
    (esr >>> 26 = 44 ∨ esr >>> 26 = 40 → Syndrome.ofEsr esr = Syndrome.TrappedFpu) ∧
    (esr >>> 26 = 47 → Syndrome.ofEsr esr = Syndrome.SError) ∧
    (esr >>> 26 = 48 ∨ esr >>> 26 = 49 ∨ esr >>> 26 = 56 →
      Syndrome.ofEsr esr = Syndrome.Breakpoint) ∧
    (esr >>> 26 = 50 ∨ esr >>> 26 = 51 → Syndrome.ofEsr esr = Syndrome.Step) ∧
    (esr >>> 26 = 52 ∨ esr >>> 26 = 53 → Syndrome.ofEsr esr = Syndrome.Watchpoint) ∧
    (esr >>> 26 = 60 → Syndrome.ofEsr esr = Syndrome.Brk (esr % 2 ^ 16)) ∧
    (esr >>> 26 ∉ ecMatched → Syndrome.ofEsr esr = Syndrome.Other esr) ∧
    ((esr >>> 2) &&& 15 = 0 → Fault.ofNat (esr &&& 63) = Fault.AddressSize) ∧
    ((esr >>> 2) &&& 15 = 1 → Fault.ofNat (esr &&& 63) = Fault.Translation) ∧
    ((esr >>> 2) &&& 15 = 2 → Fault.ofNat (esr &&& 63) = Fault.AccessFlag) ∧
    ((esr >>> 2) &&& 15 = 3 → Fault.ofNat (esr &&& 63) = Fault.Permission) ∧
    ((esr >>> 2) &&& 15 = 4 ∨ (esr >>> 2) &&& 15 = 8 →
      Fault.ofNat (esr &&& 63) = Fault.Alignment) ∧
    ((esr >>> 2) &&& 15 = 12 → Fault.ofNat (esr &&& 63) = Fault.TlbConflict) ∧
    ((esr >>> 2) &&& 15 ∉ ([0, 1, 2, 3, 4, 8, 12] : List Nat) →
      Fault.ofNat (esr &&& 63) = Fault.Other ((esr >>> 2) &&& 15)) ∧
    (ISS_ISV (esr % 2 ^ 25) = getField esr 24 1 ∧
     ISS_SAS (esr % 2 ^ 25) = getField esr 22 2 ∧
     ISS_SSE (esr % 2 ^ 25) = getField esr 21 1 ∧
     ISS_SRT (esr % 2 ^ 25) = getField esr 16 5 ∧
     ISS_SF (esr % 2 ^ 25) = getField esr 15 1 ∧
     ISS_AR (esr % 2 ^ 25) = getField esr 14 1 ∧
     ISS_SET (esr % 2 ^ 25) = getField esr 11 2 ∧
     ISS_FnV (esr % 2 ^ 25) = getField esr 10 1 ∧
     ISS_EA (esr % 2 ^ 25) = getField esr 9 1 ∧
     ISS_CM (esr % 2 ^ 25) = getField esr 8 1 ∧
     ISS_S1PTW (esr % 2 ^ 25) = getField esr 7 1 ∧
     ISS_WnR (esr % 2 ^ 25) = getField esr 6 1 ∧
     ISS_DFSC (esr % 2 ^ 25) = getField esr 0 6) := by
  have hiss : (esr &&& 0x1FFFFFF) = esr % 2 ^ 25 := by
    rw [show (0x1FFFFFF : Nat) = 2 ^ 25 - 1 from by norm_num,
      Nat.and_pow_two_sub_one_eq_mod]
  refine ⟨fun h => by simp [Syndrome.ofEsr, h],
    fun h => by simp [Syndrome.ofEsr, h],
    fun h => by simp [Syndrome.ofEsr, h],
    fun h => by simp [Syndrome.ofEsr, h],
    fun h => by rcases h with h | h <;> simp [Syndrome.ofEsr, h],
    fun h => by rcases h with h | h <;> simp [Syndrome.ofEsr, h],
    fun h => by rcases h with h | h <;> simp [Syndrome.ofEsr, h],
    fun h => by simp [Syndrome.ofEsr, h],
    fun h => by rcases h with h | h <;> simp [Syndrome.ofEsr, h],
    fun h => by simp [Syndrome.ofEsr, h],
    fun h => by rcases h with h | h <;> simp [Syndrome.ofEsr, h, hiss],
    fun h => by simp [Syndrome.ofEsr, h],
    fun h => by rcases h with h | h <;> simp [Syndrome.ofEsr, h],
    fun h => by simp [Syndrome.ofEsr, h],
    fun h => by rcases h with h | h | h <;> simp [Syndrome.ofEsr, h],
    fun h => by rcases h with h | h <;> simp [Syndrome.ofEsr, h],
    fun h => by rcases h with h | h <;> simp [Syndrome.ofEsr, h],
    fun h => by simp [Syndrome.ofEsr, h],
    ?_, ?_, ?_, ?_, ?_, ?_, ?_, ?_,
    ?_, ?_, ?_, ?_, ?_, ?_, ?_, ?_, ?_, ?_, ?_, ?_, ?_⟩
  · intro h
    have hne : ∀ m, m ∈ ecMatched → ¬ esr >>> 26 = m := fun m hmem he => h (he ▸ hmem)
    simp only [Syndrome.ofEsr]
    rw [if_neg (hne 0 (by decide)), if_neg (hne 1 (by decide)),
      if_neg (hne 7 (by decide)), if_neg (hne 14 (by decide)),
      if_neg (fun hc => hc.elim (hne 17 (by decide)) (hne 21 (by decide))),
      if_neg (fun hc => hc.elim (hne 18 (by decide)) (hne 22 (by decide))),
      if_neg (fun hc => hc.elim (hne 19 (by decide)) (hne 23 (by decide))),
      if_neg (hne 24 (by decide)),
      if_neg (fun hc => hc.elim (hne 32 (by decide)) (hne 33 (by decide))),
      if_neg (hne 34 (by decide)),
      if_neg (fun hc => hc.elim (hne 36 (by decide)) (hne 37 (by decide))),
      if_neg (hne 38 (by decide)),
      if_neg (fun hc => hc.elim (hne 44 (by decide)) (hne 40 (by decide))),
      if_neg (hne 47 (by decide)),
      if_neg (fun hc => hc.elim (hne 48 (by decide))
        (fun hc2 => hc2.elim (hne 49 (by decide)) (hne 56 (by decide)))),
      if_neg (fun hc => hc.elim (hne 50 (by decide)) (hne 51 (by decide))),
      if_neg (fun hc => hc.elim (hne 52 (by decide)) (hne 53 (by decide))),
      if_neg (hne 60 (by decide))]
  · intro h
    simp only [Fault.ofNat]
    rw [fault_arg, h]
    norm_num
  · intro h
    simp only [Fault.ofNat]
    rw [fault_arg, h]
    norm_num
  · intro h
    simp only [Fault.ofNat]
    rw [fault_arg, h]
    norm_num
  · intro h
    simp only [Fault.ofNat]
    rw [fault_arg, h]
    norm_num
  · intro h
    simp only [Fault.ofNat]
    rw [fault_arg]
    rcases h with h | h <;> rw [h] <;> norm_num
  · intro h
    simp only [Fault.ofNat]
    rw [fault_arg, h]
    norm_num
  · intro h
    have hne : ∀ m, m ∈ ([0, 1, 2, 3, 4, 8, 12] : List Nat) →
        ¬ (esr >>> 2) &&& 15 = m := fun m hmem he => h (he ▸ hmem)
    simp only [Fault.ofNat]
    rw [fault_arg]
    rw [if_neg (hne 0 (by decide)), if_neg (hne 1 (by decide)),
      if_neg (hne 2 (by decide)), if_neg (hne 3 (by decide)),
      if_neg (fun hc => hc.elim (hne 4 (by decide)) (hne 8 (by decide))),
      if_neg (hne 12 (by decide))]
  · exact getField_mod_two_pow esr 24 1 25 (by omega)
  · exact getField_mod_two_pow esr 22 2 25 (by omega)
  · exact getField_mod_two_pow esr 21 1 25 (by omega)
  · exact getField_mod_two_pow esr 16 5 25 (by omega)
  · exact getField_mod_two_pow esr 15 1 25 (by omega)
  · exact getField_mod_two_pow esr 14 1 25 (by omega)
  · exact getField_mod_two_pow esr 11 2 25 (by omega)
  · exact getField_mod_two_pow esr 10 1 25 (by omega)
  · exact getField_mod_two_pow esr 9 1 25 (by omega)
  · exact getField_mod_two_pow esr 8 1 25 (by omega)
  · exact getField_mod_two_pow esr 7 1 25 (by omega)
  · exact getField_mod_two_pow esr 6 1 25 (by omega)
  · exact getField_mod_two_pow esr 0 6 25 (by omega)

/-- Claim C4 witness: a data abort with ec = 0b100100 and WnR among the ISS
bits, applied through the theorem. -/
theorem claim_C4_witness :
    Syndrome.ofEsr 2415919175 =
      Syndrome.DataAbort (Fault.ofNat (2415919175 &&& 63)) (2415919175 &&& 3)
        (2415919175 % 2 ^ 25) ∧
    ISS_WnR (2415919175 % 2 ^ 25) = getField 2415919175 6 1 := by
  obtain ⟨-, -, -, -, -, -, -, -, -, -, hda, -, -, -, -, -, -, -, -, -, -, -,
    -, -, -, -, hiss⟩ := claim_C4 2415919175 (by decide)
  exact ⟨hda (Or.inl (by decide)), hiss.2.2.2.2.2.2.2.2.2.2.2.1⟩

/-! ## Bitwise-to-arithmetic conversions for the 32-bit register merges -/

theorem and_low32 (a : Nat) : a &&& 0xFFFFFFFF = a % 2 ^ 32 := by
  rw [show (0xFFFFFFFF : Nat) = 2 ^ 32 - 1 from by norm_num,
    Nat.and_pow_two_sub_one_eq_mod]

theorem and_high32 (a : Nat) (ha : a < 2 ^ 64) :
    a &&& 0xFFFFFFFF00000000 = a / 2 ^ 32 * 2 ^ 32 := by
  have hq : a / 2 ^ 32 < 2 ^ 32 := by omega
  have hr : a % 2 ^ 32 < 2 ^ 32 := Nat.mod_lt _ (by norm_num)
  conv_lhs => rw [← Nat.div_add_mod a (2 ^ 32)]
  rw [Nat.mul_add_lt_is_or hr, Nat.and_distrib_right]
  have h1 : a % 2 ^ 32 &&& 0xFFFFFFFF00000000 = 0 := by
    apply Nat.eq_of_testBit_eq
    intro i
    rw [Nat.testBit_and, Nat.zero_testBit,
      show (0xFFFFFFFF00000000 : Nat) = (2 ^ 32 - 1) <<< 32 from by
        rw [Nat.shiftLeft_eq]; norm_num,
      Nat.testBit_shiftLeft, Nat.testBit_two_pow_sub_one]
    rcases Nat.lt_or_ge i 32 with hi | hi
    · simp [Nat.not_le.mpr hi]
    · have hbit : (a % 2 ^ 32).testBit i = false :=
        Nat.testBit_lt_two_pow (lt_of_lt_of_le hr (Nat.pow_le_pow_right (by norm_num) hi))
      rw [hbit, Bool.false_and]
  have h2 : 2 ^ 32 * (a / 2 ^ 32) &&& 0xFFFFFFFF00000000 = 2 ^ 32 * (a / 2 ^ 32) := by
    apply Nat.eq_of_testBit_eq
    intro i
    rw [Nat.testBit_and,
      show (0xFFFFFFFF00000000 : Nat) = (2 ^ 32 - 1) <<< 32 from by
        rw [Nat.shiftLeft_eq]; norm_num,
      show 2 ^ 32 * (a / 2 ^ 32) = (a / 2 ^ 32) <<< 32 from by
        rw [Nat.shiftLeft_eq]; ring,
      Nat.testBit_shiftLeft, Nat.testBit_shiftLeft, Nat.testBit_two_pow_sub_one]
    rcases Nat.lt_or_ge i 32 with hi | hi
    · simp [Nat.not_le.mpr hi]
    · rcases Nat.lt_or_ge (i - 32) 32 with hj | hj
      · simp [hi, hj]
      · have hbit : (a / 2 ^ 32).testBit (i - 32) = false :=
          Nat.testBit_lt_two_pow
            (lt_of_lt_of_le hq (Nat.pow_le_pow_right (by norm_num) hj))
        rw [hbit]
        simp
  rw [h1, h2, Nat.or_zero]
  ring

theorem merge32 (a d : Nat) (ha : a < 2 ^ 64) :
    a &&& 0xFFFFFFFF00000000 ||| d &&& 0xFFFFFFFF =
      a / 2 ^ 32 * 2 ^ 32 + d % 2 ^ 32 := by
  rw [and_high32 a ha, and_low32,
    show a / 2 ^ 32 * 2 ^ 32 = 2 ^ 32 * (a / 2 ^ 32) from by ring]
  exact (Nat.mul_add_lt_is_or (Nat.mod_lt _ (by norm_num)) _).symm

/-- Claim C2: an MMIO-emulated load (WnR = 0) reads from the fault address
at width 8·2^SAS bits, sign-extends the value to 64 bits exactly when
SSE = 1 (via a signed cast at that width), and writes it to `tf.xn[SRT]` —
replacing the full register when SF = 1, and merging into the low 32 bits
with the high 32 bits of the prior value preserved when SF = 0; afterwards
ELR is advanced by exactly 4 and the device memory is untouched. -/
theorem claim_C2 (mem : Mem) (fault_addr iss : Nat) (tf : TrapFrame)
    (hlo : IO_BASE ≤ fault_addr) (hhi : fault_addr < IO_BASE_END)
    (hload : ISS_WnR iss = 0) (helr : tf.ELR + 4 < 2 ^ 64)
    (hreg : tf.xn.getD (ISS_SRT iss) 0 < 2 ^ 64) :
    handleMmio mem fault_addr iss tf =
      some (mem,
        { tf with
          xn := tf.xn.set (ISS_SRT iss)
            (if ISS_SF iss = 1 then
              (if ISS_SSE iss = 1 then
                sext64 (memRead mem fault_addr (2 ^ ISS_SAS iss)) (8 * 2 ^ ISS_SAS iss)
               else memRead mem fault_addr (2 ^ ISS_SAS iss))
             else
              tf.xn.getD (ISS_SRT iss) 0 / 2 ^ 32 * 2 ^ 32 +
                (if ISS_SSE iss = 1 then
                  sext64 (memRead mem fault_addr (2 ^ ISS_SAS iss)) (8 * 2 ^ ISS_SAS iss)
                 else memRead mem fault_addr (2 ^ ISS_SAS iss)) % 2 ^ 32),
          ELR := tf.ELR + 4 }) := by
  unfold handleMmio
  rw [if_neg (by omega), if_neg (show ¬ ISS_WnR iss = 1 by omega),
    Nat.mod_eq_of_lt helr]
  by_cases hsf : ISS_SF iss = 1
  · simp [hsf]
  · have hm := merge32 (tf.xn.getD (ISS_SRT iss) 0)
      (if ISS_SSE iss = 1 then
        sext64 (memRead mem fault_addr (2 ^ ISS_SAS iss)) (8 * 2 ^ ISS_SAS iss)
       else memRead mem fault_addr (2 ^ ISS_SAS iss)) hreg
    simp only [hsf, if_false, ite_false, hm]

/-- Claim C3: an MMIO-emulated store (WnR = 1) writes `tf.xn[SRT]` — masked
to its low 32 bits when SF = 0, ignoring SSE (the formula below does not
mention it) — to the fault address at width 8·2^SAS bits, advances ELR by
exactly 4, and leaves every other part of the trap frame unchanged: the
record update touches only ELR, so all general registers including
`tf.xn[SRT]` itself, all SIMD registers, and all saved system registers
keep their prior values. -/
theorem claim_C3 (mem : Mem) (fault_addr iss : Nat) (tf : TrapFrame)
    (hlo : IO_BASE ≤ fault_addr) (hhi : fault_addr < IO_BASE_END)
    (hstore : ISS_WnR iss = 1) (helr : tf.ELR + 4 < 2 ^ 64) :
    handleMmio mem fault_addr iss tf =
      some (memWrite mem fault_addr (2 ^ ISS_SAS iss)
              (if ISS_SF iss = 1 then tf.xn.getD (ISS_SRT iss) 0
               else tf.xn.getD (ISS_SRT iss) 0 % 2 ^ 32),
            { tf with ELR := tf.ELR + 4 }) := by
  unfold handleMmio
  rw [if_neg (by omega), if_pos hstore, Nat.mod_eq_of_lt helr]
  by_cases hsf : ISS_SF iss = 1
  · simp [hsf]
  · simp only [hsf, if_false, ite_false, and_low32]

/-- Claim C2 witness: spec scenario 3 — a 32-bit load without sign-extend
from IO_BASE+0x3008 into w7 (ISS: ISV=1, SAS=2, SSE=0, SRT=7, SF=0,
WnR=0), applied through the theorem. -/
theorem claim_C2_witness :
    handleMmio memWord (IO_BASE + 0x3008) 0x1870000 tfLoad =
      some (memWord,
        { tfLoad with
          xn := tfLoad.xn.set (ISS_SRT 0x1870000)
            (if ISS_SF 0x1870000 = 1 then
              (if ISS_SSE 0x1870000 = 1 then
                sext64 (memRead memWord (IO_BASE + 0x3008) (2 ^ ISS_SAS 0x1870000))
                  (8 * 2 ^ ISS_SAS 0x1870000)
               else memRead memWord (IO_BASE + 0x3008) (2 ^ ISS_SAS 0x1870000))
             else
              tfLoad.xn.getD (ISS_SRT 0x1870000) 0 / 2 ^ 32 * 2 ^ 32 +
                (if ISS_SSE 0x1870000 = 1 then
                  sext64 (memRead memWord (IO_BASE + 0x3008) (2 ^ ISS_SAS 0x1870000))
                    (8 * 2 ^ ISS_SAS 0x1870000)
                 else memRead memWord (IO_BASE + 0x3008) (2 ^ ISS_SAS 0x1870000)) % 2 ^ 32),
          ELR := tfLoad.ELR + 4 }) :=
  claim_C2 memWord (IO_BASE + 0x3008) 0x1870000 tfLoad (by decide) (by decide)
    (by decide) (by decide) (by decide)

/-- Claim C3 witness: spec scenario 1 — a 32-bit store of 0xDEADBEEF from
x5 to IO_BASE+0x3000 (ISS: ISV=1, SAS=2, SSE=0, SRT=5, SF=0, WnR=1, CM=0),
applied through the theorem. -/
theorem claim_C3_witness :
    handleMmio memZero (IO_BASE + 0x3000) 0x1850040 tfStore =
      some (memWrite memZero (IO_BASE + 0x3000) (2 ^ ISS_SAS 0x1850040)
              (if ISS_SF 0x1850040 = 1 then tfStore.xn.getD (ISS_SRT 0x1850040) 0
               else tfStore.xn.getD (ISS_SRT 0x1850040) 0 % 2 ^ 32),
            { tfStore with ELR := tfStore.ELR + 4 }) :=
  claim_C3 memZero (IO_BASE + 0x3000) 0x1850040 tfStore (by decide) (by decide)
    (by decide) (by decide)

/-! ## Behaviour of the allocator on Page layouts -/

theorem allocPage_unfold (a : Allocator) : allocatorAlloc a PAGE_SIZE PAGE_SIZE =
    match scanBins a 65536 65536 (List.range' 13 17) with
    | none => none
    | some (some (chunk, a2)) => some (chunk, a2)
    | some none =>
      match align_up a.top_start 65536 with
      | none => none
      | some chunk_start =>
        match rebin a a.top_start (chunk_start - a.top_start) with
        | none => none
        | some a1 =>
          if chunk_start + 65536 > a1.top_end then
            some (0, { a1 with top_start := chunk_start })
          else if is_aligned (chunk_start + 65536) 8 then
            some (chunk_start, { a1 with top_start := chunk_start + 65536 })
          else none := rfl

theorem scanBins_empty (a : Allocator) (size al : Nat) :
    ∀ is : List Nat, (∀ i ∈ is, a.bins.getD i [] = []) →
      scanBins a size al is = some none := by
  intro is
  induction is with
  | nil => intro _; rfl
  | cons i rest ih =>
    intro h
    rw [scanBins, h i (by simp)]
    simp only [List.find?_nil]
    exact ih fun j hj => h j (by simp [hj])

theorem scanBins_found (a : Allocator) (size al : Nat) :
    ∀ (is : List Nat) (chunk : Nat) (a2 : Allocator),
      scanBins a size al is = some (some (chunk, a2)) →
      is_aligned chunk al = true := by
  intro is
  induction is with
  | nil =>
    intro chunk a2 h
    simp [scanBins] at h
  | cons i rest ih =>
    intro chunk a2 h
    rw [scanBins] at h
    cases hf : (a.bins.getD i []).find? (fun node => is_aligned node al) with
    | none =>
      rw [hf] at h
      exact ih chunk a2 h
    | some c =>
      rw [hf] at h
      dsimp only at h
      cases hrb : rebin { a with bins := a.bins.set i ((a.bins.getD i []).erase c) }
          (c + size) (2 ^ (i + 3) - size) with
      | none => rw [hrb] at h; cases h
      | some a3 =>
        rw [hrb] at h
        dsimp only at h
        simp only [Option.some.injEq, Prod.mk.injEq] at h
        have hp := List.find?_some hf
        simp only at hp
        exact h.1 ▸ hp

theorem align_up_page (t : Nat) (ht : t % 65536 = 0) :
    align_up t 65536 = some t := by
  unfold align_up align_down
  split
  · simp only [Option.some.injEq]
    omega
  · next hc => exact absurd (by decide : isPow2 65536 = true) (by simp [hc])

/-- From a state whose bins at or above the Page size class are empty and
whose top chunk starts Page-aligned with room for a page, `Allocator::alloc`
of a Page layout carves exactly the page `[top_start, top_start + 65536)`
from the wilderness, leaving the bins untouched. -/
theorem allocPage_spec (a : Allocator)
    (hempty : ∀ i, i < 30 → 13 ≤ i → a.bins.getD i [] = [])
    (htop : a.top_start % PAGE_SIZE = 0)
    (hfits : a.top_start + PAGE_SIZE ≤ a.top_end) :
    allocatorAlloc a PAGE_SIZE PAGE_SIZE =
      some (a.top_start, { a with top_start := a.top_start + PAGE_SIZE }) := by
  rw [allocPage_unfold,
    scanBins_empty a 65536 65536 (List.range' 13 17)
      (by intro i hi; rw [List.mem_range'] at hi; exact hempty i (by omega) (by omega))]
  simp only
  rw [align_up_page a.top_start htop]
  simp only
  rw [Nat.sub_self]
  rw [show rebin a a.top_start 0 = some a from rfl]
  simp only
  rw [if_neg (by unfold PAGE_SIZE at hfits; omega)]
  rw [if_pos (by
    have h8 : (a.top_start + 65536) % 8 = 0 := by
      unfold PAGE_SIZE at htop
      omega
    have hand : (a.top_start + 65536) &&& (8 - 1) = (a.top_start + 65536) % 8 := by
      rw [show (8 : Nat) - 1 = 2 ^ 3 - 1 from rfl, Nat.and_pow_two_sub_one_eq_mod]
    unfold is_aligned
    rw [hand, h8]
    rfl)]
  rfl

/-- A non-null pointer returned by `Allocator::alloc` for a Page layout is
Page-aligned: bin hits are filtered by the alignment predicate and
wilderness carves start at `align_up`. -/
theorem allocPage_aligned (a : Allocator) (buf : Nat) (a1 : Allocator)
    (h : allocatorAlloc a PAGE_SIZE PAGE_SIZE = some (buf, a1)) (hnz : buf ≠ 0) :
    buf % PAGE_SIZE = 0 := by
  rw [allocPage_unfold] at h
  cases hscan : scanBins a 65536 65536 (List.range' 13 17) with
  | none => rw [hscan] at h; cases h
  | some r =>
    rw [hscan] at h
    cases r with
    | some p =>
      obtain ⟨chunk, a2⟩ := p
      dsimp only at h
      simp only [Option.some.injEq, Prod.mk.injEq] at h
      have hfound := scanBins_found a 65536 65536 (List.range' 13 17) chunk a2 hscan
      unfold is_aligned at hfound
      rw [show (65536 - 1 : Nat) = 2 ^ 16 - 1 from rfl,
        Nat.and_pow_two_sub_one_eq_mod] at hfound
      unfold PAGE_SIZE
      rw [← h.1]
      simpa using hfound
    | none =>
      dsimp only at h
      cases hup : align_up a.top_start 65536 with
      | none => rw [hup] at h; cases h
      | some cs =>
        rw [hup] at h
        dsimp only at h
        have hcs : cs % 65536 = 0 := by
          unfold align_up align_down at hup
          split at hup
          · simp only [Option.some.injEq] at hup
            omega
          · cases hup
        cases hrb : rebin a a.top_start (cs - a.top_start) with
        | none => rw [hrb] at h; cases h
        | some a3 =>
          rw [hrb] at h
          dsimp only at h
          by_cases hoom : cs + 65536 > a3.top_end
          · rw [if_pos hoom] at h
            simp only [Option.some.injEq, Prod.mk.injEq] at h
            exact absurd h.1.symm hnz
          · rw [if_neg hoom] at h
            by_cases hal : is_aligned (cs + 65536) 8 = true
            · rw [if_pos hal] at h
              simp only [Option.some.injEq, Prod.mk.injEq] at h
              obtain ⟨h2, -⟩ := h
              unfold PAGE_SIZE
              omega
            · rw [if_neg hal] at h
              cases h

/-! ## Page-table entry and slot lemmas -/

theorem getD_set_self (l : List Nat) (i a d : Nat) (h : i < l.length) :
    (l.set i a).getD i d = a := by
  simp [List.getD_eq_getElem?_getD, List.getElem?_set_self h]

theorem getD_set_ne (l : List Nat) (i j a d : Nat) (h : i ≠ j) :
    (l.set i a).getD j d = l.getD j d := by
  simp [List.getD_eq_getElem?_getD, List.getElem?_set_ne h]

theorem stage2_l3pte_fields (buf : Nat) :
    getField (stage2_l3pte buf) 16 32 = buf >>> 16 % 2 ^ 32 ∧
    getField (stage2_l3pte buf) 0 1 = 1 ∧
    getField (stage2_l3pte buf) 1 1 = 1 ∧
    getField (stage2_l3pte buf) 4 2 = 3 ∧
    getField (stage2_l3pte buf) 2 2 = 3 ∧
    getField (stage2_l3pte buf) 6 2 = 3 ∧
    getField (stage2_l3pte buf) 8 2 = 3 ∧
    getField (stage2_l3pte buf) 10 1 = 1 := by
  unfold stage2_l3pte Stage2EntryPerm_READWRITE PAGE_ALIGN
  refine ⟨?_, ?_, ?_, ?_, ?_, ?_, ?_, ?_⟩ <;>
    simp [getField_setField_above, getField_setField_below, getField_setField_self]

theorem new_l3pte_fields (va : Nat) :
    getField (new_l3pte va false) 16 32 = va >>> 16 % 2 ^ 32 ∧
    getField (new_l3pte va false) 0 1 = 1 ∧
    getField (new_l3pte va false) 1 1 = 1 ∧
    getField (new_l3pte va false) 2 3 = 0 ∧
    getField (new_l3pte va false) 6 2 = 0 ∧
    getField (new_l3pte va false) 8 2 = 3 ∧
    getField (new_l3pte va false) 10 1 = 1 := by
  unfold new_l3pte EntryPerm_KERN_RW PAGE_ALIGN
  refine ⟨?_, ?_, ?_, ?_, ?_, ?_, ?_⟩ <;>
    simp [getField_setField_above, getField_setField_below, getField_setField_self]

theorem addr_roundtrip (buf : Nat) (hb : buf < 2 ^ 48) (hal : buf % PAGE_SIZE = 0) :
    (buf >>> 16 % 2 ^ 32) <<< 16 = buf := by
  rw [Nat.shiftRight_eq_div_pow, Nat.shiftLeft_eq]
  unfold PAGE_SIZE at hal
  rw [show (2 : Nat) ^ 48 = 281474976710656 from by norm_num] at hb
  rw [show (2 : Nat) ^ 16 = 65536 from by norm_num,
    show (2 : Nat) ^ 32 = 4294967296 from by norm_num]
  omega

theorem locate_guest (va : Nat) (hva : va < 2 ^ 28) (hal : va % PAGE_SIZE = 0) :
    locate va = some (0, va / 65536) := by
  unfold locate PAGE_ALIGN
  have h1 : va &&& (PAGE_SIZE - 1) = va % 65536 := by
    unfold PAGE_SIZE
    rw [show (64 * 1024 - 1 : Nat) = 2 ^ 16 - 1 from rfl, Nat.and_pow_two_sub_one_eq_mod]
  have h2 : (va >>> 16) &&& 8191 = va / 65536 := by
    rw [Nat.shiftRight_eq_div_pow, show (8191 : Nat) = 2 ^ 13 - 1 from rfl,
      Nat.and_pow_two_sub_one_eq_mod]
    norm_num at hva ⊢
    omega
  have h3 : (va >>> 29) &&& 8191 = 0 := by
    rw [Nat.shiftRight_eq_div_pow, show (8191 : Nat) = 2 ^ 13 - 1 from rfl,
      Nat.and_pow_two_sub_one_eq_mod]
    norm_num at hva ⊢
    omega
  rw [h1, h2, h3]
  rw [if_neg (by unfold PAGE_SIZE at hal; omega), if_neg (by omega)]

theorem getEntry_guest (pt : PageTable) (va : Nat) (hva : va < 2 ^ 28)
    (hal : va % PAGE_SIZE = 0) :
    getEntry pt va = some (pt.entries.getD (va / 65536) 0) := by
  unfold getEntry
  rw [locate_guest va hva hal]
  dsimp only
  norm_num

theorem setEntry_guest (pt : PageTable) (va e : Nat) (hva : va < 2 ^ 28)
    (hal : va % PAGE_SIZE = 0) :
    setEntry pt va e = some ⟨pt.entries.set (va / 65536) e⟩ := by
  unfold setEntry
  rw [locate_guest va hva hal]
  dsimp only
  norm_num

theorem align_down_page (t page : Nat) (h : align_down t PAGE_SIZE = some page) :
    page = t - t % 65536 ∧ page % 65536 = 0 ∧ page ≤ t := by
  unfold align_down PAGE_SIZE at h
  split at h
  · simp only [Option.some.injEq] at h
    omega
  · cases h

/-- `GuestPageTable::alloc` from a well-prepared state: carves the next
wilderness page and installs the stage-2 descriptor in the slot of `va`. -/
theorem guestAlloc_spec (pt : PageTable) (al : Allocator) (va : Nat) (perm : PagePerm)
    (hva : va < 2 ^ 28) (hal : va % PAGE_SIZE = 0)
    (hinv : entryIsValid (pt.entries.getD (va / 65536) 0) = false)
    (hempty : ∀ i, i < 30 → 13 ≤ i → al.bins.getD i [] = [])
    (htop : al.top_start % PAGE_SIZE = 0) (htop0 : 0 < al.top_start)
    (hfits : al.top_start + PAGE_SIZE ≤ al.top_end) :
    guestAlloc pt al va perm =
      some (al.top_start,
        ⟨pt.entries.set (va / 65536) (stage2_l3pte al.top_start)⟩,
        { al with top_start := al.top_start + PAGE_SIZE }) := by
  unfold guestAlloc
  rw [allocPage_spec al hempty htop hfits]
  dsimp only
  rw [if_neg (by omega), getEntry_guest pt va hva hal]
  dsimp only
  rw [if_neg (fun hc => by rw [hinv] at hc; exact Bool.noConfusion hc),
    setEntry_guest pt va _ hva hal]

/-- Claim C6: every stage-1 RAM entry built by `VisorPageTable::new_l3pte`
has AP = 0b00, SH = 0b11, ATTR = 0b000, VALID = 1, and shifting its ADDR
field left by PAGE_ALIGN recovers the physical address passed in; every
stage-2 entry installed by `GuestPageTable::alloc` has S2AP = 0b11,
SH = 0b11, CACHE = 0b11, ATTR = 0b11, VALID = 1, and its ADDR field
recovers the address of the freshly allocated (Page-aligned) page.  The
bounds `< 2^48` reflect the 48-bit ADDR field of the descriptors. -/
theorem claim_C6 :
    (∀ pa : Nat, pa < 2 ^ 48 → pa % PAGE_SIZE = 0 →
      getField (new_l3pte pa false) 16 32 <<< PAGE_ALIGN = pa ∧
      getField (new_l3pte pa false) 6 2 = 0b00 ∧
      getField (new_l3pte pa false) 8 2 = 0b11 ∧
      getField (new_l3pte pa false) 2 3 = 0b000 ∧
      getField (new_l3pte pa false) 0 1 = 1) ∧
    (∀ (pt : PageTable) (al : Allocator) (va : Nat) (perm : PagePerm)
        (buf : Nat) (pt1 : PageTable) (a1 : Allocator),
      guestAlloc pt al va perm = some (buf, pt1, a1) → buf < 2 ^ 48 →
      buf % PAGE_SIZE = 0 ∧
      setEntry pt va (stage2_l3pte buf) = some pt1 ∧
      getField (stage2_l3pte buf) 16 32 <<< PAGE_ALIGN = buf ∧
      getField (stage2_l3pte buf) 6 2 = 0b11 ∧
      getField (stage2_l3pte buf) 8 2 = 0b11 ∧
      getField (stage2_l3pte buf) 4 2 = 0b11 ∧
      getField (stage2_l3pte buf) 2 2 = 0b11 ∧
      getField (stage2_l3pte buf) 0 1 = 1) := by
  constructor
  · intro pa hb hal
    obtain ⟨haddr, -, -, hattr, hap, hsh, -⟩ := new_l3pte_fields pa
    refine ⟨?_, hap, hsh, hattr, (new_l3pte_fields pa).2.1⟩
    rw [haddr]
    unfold PAGE_ALIGN
    exact addr_roundtrip pa hb hal
  · intro pt al va perm buf pt1 a1 h hb
    unfold guestAlloc at h
    cases halloc : allocatorAlloc al PAGE_SIZE PAGE_SIZE with
    | none => rw [halloc] at h; cases h
    | some r =>
      obtain ⟨buf0, a1'⟩ := r
      rw [halloc] at h
      dsimp only at h
      by_cases hz : buf0 = 0
      · rw [if_pos hz] at h; cases h
      · rw [if_neg hz] at h
        cases hget : getEntry pt va with
        | none => rw [hget] at h; cases h
        | some e =>
          rw [hget] at h
          dsimp only at h
          by_cases hv : entryIsValid e = true
          · rw [if_pos hv] at h; cases h
          · rw [if_neg hv] at h
            cases hset : setEntry pt va (stage2_l3pte buf0) with
            | none => rw [hset] at h; cases h
            | some pt1' =>
              rw [hset] at h
              dsimp only at h
              simp only [Option.some.injEq, Prod.mk.injEq] at h
              obtain ⟨hbuf, hpt, ha⟩ := h
              have hz2 : buf ≠ 0 := hbuf ▸ hz
              have halloc2 : allocatorAlloc al PAGE_SIZE PAGE_SIZE = some (buf, a1) := by
                rw [halloc, hbuf, ha]
              have halign := allocPage_aligned al buf a1 halloc2 hz2
              obtain ⟨haddr, hvalid, -, hcache, hattr, hs2ap, hsh, -⟩ :=
                stage2_l3pte_fields buf
              refine ⟨halign, ?_, ?_, hs2ap, hsh, hcache, hattr, hvalid⟩
              · rw [← hbuf, ← hpt]
                exact hset
              · rw [haddr]
                unfold PAGE_ALIGN
                exact addr_roundtrip buf hb halign

/-- Claim C6 witness: the stage-1 part at PA 0x30000 and the stage-2 part
at a concrete allocation of IPA 0x90000 backed by the page at 0x200000. -/
theorem claim_C6_witness :
    (getField (new_l3pte 0x30000 false) 16 32 <<< PAGE_ALIGN = 0x30000 ∧
     getField (new_l3pte 0x30000 false) 6 2 = 0b00 ∧
     getField (new_l3pte 0x30000 false) 8 2 = 0b11 ∧
     getField (new_l3pte 0x30000 false) 2 3 = 0b000 ∧
     getField (new_l3pte 0x30000 false) 0 1 = 1) ∧
    (0x200000 % PAGE_SIZE = 0 ∧
     setEntry ptW 0x90000 (stage2_l3pte 0x200000) = some ptW1 ∧
     getField (stage2_l3pte 0x200000) 16 32 <<< PAGE_ALIGN = 0x200000 ∧
     getField (stage2_l3pte 0x200000) 6 2 = 0b11 ∧
     getField (stage2_l3pte 0x200000) 8 2 = 0b11 ∧
     getField (stage2_l3pte 0x200000) 4 2 = 0b11 ∧
     getField (stage2_l3pte 0x200000) 2 2 = 0b11 ∧
     getField (stage2_l3pte 0x200000) 0 1 = 1) :=
  ⟨claim_C6.1 0x30000 (by decide) (by decide),
   claim_C6.2 ptW alW 0x90000 PagePerm.RWX 0x200000 ptW1 alW1 (by decide) (by decide)⟩

/-! ## The lazy-paging branch of the exception handler -/

/-- The lazy-paging branch: an abort of kind Translation or AccessFlag whose
HPFAR-derived IPA is below GUEST_MAX_VM_SIZE, with the stage-2 slot of the
aligned fault page still invalid, performs exactly the one `guestAlloc` and
returns with the trap frame untouched. -/
theorem handle_lazy (syn : Syndrome) (k : Fault) (lvl : Nat) (far hpfar : Nat)
    (st : HState) (mem : Mem) (page : Nat)
    (habort : syn.get_abort_info = some (k, lvl))
    (hk : k = Fault.Translation ∨ k = Fault.AccessFlag)
    (htfa : (hpfar >>> 4) <<< 12 < GUEST_MAX_VM_SIZE)
    (hpage : align_down ((hpfar >>> 4) <<< 12) PAGE_SIZE = some page)
    (hinv : entryIsValid (st.pt.entries.getD (page / 65536) 0) = false)
    (hempty : ∀ i, i < 30 → 13 ≤ i → st.alloc.bins.getD i [] = [])
    (htop : st.alloc.top_start % PAGE_SIZE = 0) (htop0 : 0 < st.alloc.top_start)
    (hfits : st.alloc.top_start + PAGE_SIZE ≤ st.alloc.top_end) :
    handleLowerElSynchronous syn far hpfar st mem =
      some (HOutcome.lazy,
        ⟨⟨st.pt.entries.set (page / 65536) (stage2_l3pte st.alloc.top_start)⟩,
         { st.alloc with top_start := st.alloc.top_start + PAGE_SIZE }, st.tf⟩,
        mem) := by
  obtain ⟨hpeq, hpal, hple⟩ := align_down_page _ _ hpage
  have hva : page < 2 ^ 28 := by
    unfold GUEST_MAX_VM_SIZE at htfa
    rw [show (2 : Nat) ^ 28 = 0x10000000 from by norm_num]
    omega
  unfold handleLowerElSynchronous
  rw [habort]
  dsimp only
  rw [if_pos (by rcases hk with h | h <;> simp [h]), hpage]
  dsimp only
  rw [if_pos htfa, getEntry_guest st.pt page hva hpal]
  dsimp only
  rw [if_pos hinv,
    guestAlloc_spec st.pt st.alloc page PagePerm.RWX hva hpal hinv hempty htop htop0 hfits]

theorem handleTranslationMmio_no_lazy (syn : Syndrome) (far hpfar : Nat)
    (st : HState) (mem : Mem) (o : HOutcome) (st2 : HState) (mem2 : Mem)
    (h : handleTranslationMmio syn far hpfar st mem = some (o, st2, mem2)) :
    o ≠ HOutcome.lazy ∧ st2.pt = st.pt ∧ st2.alloc = st.alloc := by
  unfold handleTranslationMmio at h
  cases syn
  case DataAbort kind lvl iss =>
    try dsimp only at h
    by_cases hkind : kind = Fault.Translation
    · rw [if_pos hkind] at h
      by_cases hisv : ISS_ISV iss = 0
      · rw [if_pos hisv] at h
        cases h
      · rw [if_neg hisv] at h
        by_cases hcm : ISS_CM iss = 0
        · rw [if_pos hcm] at h
          try dsimp only at h
          by_cases hio : IO_BASE ≤ (if ISS_FnV iss ≠ 0 then (hpfar >>> 4) <<< 12 else far) ∧
              (if ISS_FnV iss ≠ 0 then (hpfar >>> 4) <<< 12 else far) < IO_BASE_END
          · rw [if_pos hio] at h
            cases hm : handleMmio mem
                (if ISS_FnV iss ≠ 0 then (hpfar >>> 4) <<< 12 else far) iss st.tf with
            | none => rw [hm] at h; cases h
            | some p =>
              obtain ⟨mem1, tf1⟩ := p
              rw [hm] at h
              dsimp only at h
              simp only [Option.some.injEq, Prod.mk.injEq] at h
              obtain ⟨ho, hst, hmm⟩ := h
              subst ho hst
              exact ⟨by simp, rfl, rfl⟩
          · rw [if_neg hio] at h
            simp only [Option.some.injEq, Prod.mk.injEq] at h
            obtain ⟨ho, hst, hmm⟩ := h
            subst ho hst
            exact ⟨by simp, rfl, rfl⟩
        · rw [if_neg hcm] at h
          simp only [Option.some.injEq, Prod.mk.injEq] at h
          obtain ⟨ho, hst, hmm⟩ := h
          subst ho hst
          exact ⟨by simp, rfl, rfl⟩
    · rw [if_neg hkind] at h
      simp only [Option.some.injEq, Prod.mk.injEq] at h
      obtain ⟨ho, hst, hmm⟩ := h
      subst ho hst
      exact ⟨by simp, rfl, rfl⟩
  all_goals
    simp only [Option.some.injEq, Prod.mk.injEq] at h
    obtain ⟨ho, hst, hmm⟩ := h
    subst ho hst
    exact ⟨by simp, rfl, rfl⟩

/-- When the stage-2 slot of the HPFAR-derived fault page is already valid,
no path of the handler allocates: whatever the outcome, the page table and
the allocator are unchanged and the outcome is not the lazy-allocation
one. -/
theorem handle_valid_no_lazy (syn : Syndrome) (far hpfar : Nat) (st : HState) (mem : Mem)
    (hvalid : ∀ page, align_down ((hpfar >>> 4) <<< 12) PAGE_SIZE = some page →
      ∀ e, getEntry st.pt page = some e → entryIsValid e = true) :
    ∀ o st2 mem2, handleLowerElSynchronous syn far hpfar st mem = some (o, st2, mem2) →
      o ≠ HOutcome.lazy ∧ st2.pt = st.pt ∧ st2.alloc = st.alloc := by
  intro o st2 mem2 h
  unfold handleLowerElSynchronous at h
  cases habort : syn.get_abort_info with
  | none =>
    rw [habort] at h
    dsimp only at h
    exact handleTranslationMmio_no_lazy syn far hpfar st mem o st2 mem2 h
  | some p =>
    obtain ⟨kind, lvl⟩ := p
    rw [habort] at h
    dsimp only at h
    by_cases hk : kind = Fault.AccessFlag ∨ kind = Fault.Translation
    · rw [if_pos hk] at h
      cases had : align_down ((hpfar >>> 4) <<< 12) PAGE_SIZE with
      | none =>
        rw [had] at h
        cases h
      | some page =>
        rw [had] at h
        dsimp only at h
        by_cases htfa : (hpfar >>> 4) <<< 12 < GUEST_MAX_VM_SIZE
        · rw [if_pos htfa] at h
          cases hget : getEntry st.pt page with
          | none =>
            rw [hget] at h
            cases h
          | some e =>
            rw [hget] at h
            dsimp only at h
            have hval := hvalid page had e hget
            rw [if_neg (by rw [hval]; simp)] at h
            exact handleTranslationMmio_no_lazy syn far hpfar st mem o st2 mem2 h
        · rw [if_neg htfa] at h
          exact handleTranslationMmio_no_lazy syn far hpfar st mem o st2 mem2 h
    · rw [if_neg hk] at h
      exact handleTranslationMmio_no_lazy syn far hpfar st mem o st2 mem2 h

/-- Claim C1: a Translation or AccessFlag abort whose HPFAR-derived IPA
`(hpfar >> 4) << 12` lies below GUEST_MAX_VM_SIZE and whose (front-of-queue)
process stage-2 slot for the 64 KiB-aligned fault page is invalid makes
`handle_lower_el_synchronous` call `GuestPageTable::alloc` exactly once on
that aligned page with permission RWX and return without modifying the trap
frame (ELR included), so the guest instruction is re-executed; a second
fault on the same page (entry now valid) triggers no further allocation and
leaves the stage-2 table and allocator unchanged; and a fault on a distinct
IPA installs a distinct physical page (the allocator hypotheses describe a
page-aligned top chunk with room for two pages and no free chunks in the
Page-sized-or-larger bins, as after boot-time Page allocations). -/
theorem claim_C1
    (syn syn2 : Syndrome) (k k2 : Fault) (lvl lvl2 : Nat)
    (far far2 hpfar hpfar2 : Nat) (st : HState) (mem : Mem) (page page2 : Nat)
    (habort : syn.get_abort_info = some (k, lvl))
    (hk : k = Fault.Translation ∨ k = Fault.AccessFlag)
    (htfa : (hpfar >>> 4) <<< 12 < GUEST_MAX_VM_SIZE)
    (hpage : align_down ((hpfar >>> 4) <<< 12) PAGE_SIZE = some page)
    (habort2 : syn2.get_abort_info = some (k2, lvl2))
    (hk2 : k2 = Fault.Translation ∨ k2 = Fault.AccessFlag)
    (htfa2 : (hpfar2 >>> 4) <<< 12 < GUEST_MAX_VM_SIZE)
    (hpage2 : align_down ((hpfar2 >>> 4) <<< 12) PAGE_SIZE = some page2)
    (hne : page ≠ page2)
    (hlen : st.pt.entries.length = 16384)
    (hinv : entryIsValid (st.pt.entries.getD (page / 65536) 0) = false)
    (hinv2 : entryIsValid (st.pt.entries.getD (page2 / 65536) 0) = false)
    (hempty : ∀ i, i < 30 → 13 ≤ i → st.alloc.bins.getD i [] = [])
    (htop : st.alloc.top_start % PAGE_SIZE = 0) (htop0 : 0 < st.alloc.top_start)
    (hfits : st.alloc.top_start + 2 * PAGE_SIZE ≤ st.alloc.top_end)
    (hbound : st.alloc.top_end ≤ 2 ^ 48) :
    guestAlloc st.pt st.alloc page PagePerm.RWX =
      some (st.alloc.top_start,
        ⟨st.pt.entries.set (page / 65536) (stage2_l3pte st.alloc.top_start)⟩,
        { st.alloc with top_start := st.alloc.top_start + PAGE_SIZE }) ∧
    handleLowerElSynchronous syn far hpfar st mem =
      some (HOutcome.lazy,
        ⟨⟨st.pt.entries.set (page / 65536) (stage2_l3pte st.alloc.top_start)⟩,
         { st.alloc with top_start := st.alloc.top_start + PAGE_SIZE }, st.tf⟩,
        mem) ∧
    (∀ o st2 mem2,
      handleLowerElSynchronous syn far hpfar
        ⟨⟨st.pt.entries.set (page / 65536) (stage2_l3pte st.alloc.top_start)⟩,
         { st.alloc with top_start := st.alloc.top_start + PAGE_SIZE }, st.tf⟩ mem
        = some (o, st2, mem2) →
      o ≠ HOutcome.lazy ∧
      st2.pt = ⟨st.pt.entries.set (page / 65536) (stage2_l3pte st.alloc.top_start)⟩ ∧
      st2.alloc = { st.alloc with top_start := st.alloc.top_start + PAGE_SIZE }) ∧
    guestAlloc
      ⟨st.pt.entries.set (page / 65536) (stage2_l3pte st.alloc.top_start)⟩
      { st.alloc with top_start := st.alloc.top_start + PAGE_SIZE }
      page2 PagePerm.RWX =
      some (st.alloc.top_start + PAGE_SIZE,
        ⟨(st.pt.entries.set (page / 65536) (stage2_l3pte st.alloc.top_start)).set
          (page2 / 65536) (stage2_l3pte (st.alloc.top_start + PAGE_SIZE))⟩,
        { st.alloc with top_start := st.alloc.top_start + PAGE_SIZE + PAGE_SIZE }) ∧
    handleLowerElSynchronous syn2 far2 hpfar2
      ⟨⟨st.pt.entries.set (page / 65536) (stage2_l3pte st.alloc.top_start)⟩,
       { st.alloc with top_start := st.alloc.top_start + PAGE_SIZE }, st.tf⟩ mem =
      some (HOutcome.lazy,
        ⟨⟨(st.pt.entries.set (page / 65536) (stage2_l3pte st.alloc.top_start)).set
            (page2 / 65536) (stage2_l3pte (st.alloc.top_start + PAGE_SIZE))⟩,
         { st.alloc with top_start := st.alloc.top_start + PAGE_SIZE + PAGE_SIZE },
         st.tf⟩, mem) ∧
    st.alloc.top_start + PAGE_SIZE ≠ st.alloc.top_start ∧
    getField (stage2_l3pte (st.alloc.top_start + PAGE_SIZE)) 16 32 <<< PAGE_ALIGN ≠
      getField (stage2_l3pte st.alloc.top_start) 16 32 <<< PAGE_ALIGN := by
  obtain ⟨hpeq, hpal, hple⟩ := align_down_page _ _ hpage
  obtain ⟨hpeq2, hpal2, hple2⟩ := align_down_page _ _ hpage2
  have h28 : (2 : Nat) ^ 28 = 268435456 := by norm_num
  have hva : page < 2 ^ 28 := by
    unfold GUEST_MAX_VM_SIZE at htfa
    rw [h28]
    omega
  have hva2 : page2 < 2 ^ 28 := by
    unfold GUEST_MAX_VM_SIZE at htfa2
    rw [h28]
    omega
  have hidx : page / 65536 ≠ page2 / 65536 := by omega
  have hidxlt : page / 65536 < 16384 := by
    rw [h28] at hva
    omega
  have hP : PAGE_SIZE = 65536 := rfl
  have hfits1 : st.alloc.top_start + PAGE_SIZE ≤ st.alloc.top_end := by
    rw [hP] at hfits ⊢
    omega
  have h48 : (2 : Nat) ^ 48 = 281474976710656 := by norm_num
  have h1 := guestAlloc_spec st.pt st.alloc page PagePerm.RWX hva hpal hinv
    hempty htop htop0 hfits1
  have h2 := handle_lazy syn k lvl far hpfar st mem page habort hk htfa hpage
    hinv hempty htop htop0 hfits1
  -- the state after the first fault
  have hgetset : (⟨st.pt.entries.set (page / 65536)
        (stage2_l3pte st.alloc.top_start)⟩ : PageTable).entries.getD
        (page / 65536) 0 = stage2_l3pte st.alloc.top_start := by
    exact getD_set_self _ _ _ _ (by rw [hlen]; exact hidxlt)
  have hgetne : (⟨st.pt.entries.set (page / 65536)
        (stage2_l3pte st.alloc.top_start)⟩ : PageTable).entries.getD
        (page2 / 65536) 0 = st.pt.entries.getD (page2 / 65536) 0 :=
    getD_set_ne _ _ _ _ _ hidx
  have hvalid1 : ∀ p, align_down ((hpfar >>> 4) <<< 12) PAGE_SIZE = some p →
      ∀ e, getEntry (⟨st.pt.entries.set (page / 65536)
        (stage2_l3pte st.alloc.top_start)⟩ : PageTable) p = some e →
      entryIsValid e = true := by
    intro p hp e hget
    have hpp : p = page := by
      rw [hpage] at hp
      simp only [Option.some.injEq] at hp
      exact hp.symm
    subst hpp
    rw [getEntry_guest _ p hva hpal, hgetset] at hget
    simp only [Option.some.injEq] at hget
    subst hget
    unfold entryIsValid
    rw [(stage2_l3pte_fields st.alloc.top_start).2.1]
    rfl
  have h3 := handle_valid_no_lazy syn far hpfar
    ⟨⟨st.pt.entries.set (page / 65536) (stage2_l3pte st.alloc.top_start)⟩,
     { st.alloc with top_start := st.alloc.top_start + PAGE_SIZE }, st.tf⟩ mem hvalid1
  have hinv2' : entryIsValid ((⟨st.pt.entries.set (page / 65536)
      (stage2_l3pte st.alloc.top_start)⟩ : PageTable).entries.getD
      (page2 / 65536) 0) = false := by
    rw [hgetne]
    exact hinv2
  have htop' : (st.alloc.top_start + PAGE_SIZE) % PAGE_SIZE = 0 := by
    rw [hP] at htop ⊢
    omega
  have hfits' : st.alloc.top_start + PAGE_SIZE + PAGE_SIZE ≤ st.alloc.top_end := by
    rw [hP] at hfits ⊢
    omega
  have h4 := guestAlloc_spec
    ⟨st.pt.entries.set (page / 65536) (stage2_l3pte st.alloc.top_start)⟩
    { st.alloc with top_start := st.alloc.top_start + PAGE_SIZE }
    page2 PagePerm.RWX hva2 hpal2 hinv2' (fun i hi h13 => hempty i hi h13)
    htop' (by show 0 < st.alloc.top_start + PAGE_SIZE; rw [hP]; omega) hfits'
  have h5 := handle_lazy syn2 k2 lvl2 far2 hpfar2
    ⟨⟨st.pt.entries.set (page / 65536) (stage2_l3pte st.alloc.top_start)⟩,
     { st.alloc with top_start := st.alloc.top_start + PAGE_SIZE }, st.tf⟩ mem page2
    habort2 hk2 htfa2 hpage2 hinv2' (fun i hi h13 => hempty i hi h13)
    htop' (by show 0 < st.alloc.top_start + PAGE_SIZE; rw [hP]; omega) hfits'
  have hBlt : st.alloc.top_start < 2 ^ 48 := by
    rw [h48] at hbound ⊢
    rw [hP] at hfits
    omega
  have hB2lt : st.alloc.top_start + PAGE_SIZE < 2 ^ 48 := by
    rw [h48] at hbound ⊢
    rw [hP] at hfits ⊢
    omega
  have haddr1 : getField (stage2_l3pte st.alloc.top_start) 16 32 <<< PAGE_ALIGN
      = st.alloc.top_start := by
    rw [(stage2_l3pte_fields st.alloc.top_start).1]
    unfold PAGE_ALIGN
    exact addr_roundtrip _ hBlt htop
  have haddr2 : getField (stage2_l3pte (st.alloc.top_start + PAGE_SIZE)) 16 32
      <<< PAGE_ALIGN = st.alloc.top_start + PAGE_SIZE := by
    rw [(stage2_l3pte_fields (st.alloc.top_start + PAGE_SIZE)).1]
    unfold PAGE_ALIGN
    exact addr_roundtrip _ hB2lt htop'
  refine ⟨h1, h2, h3, h4, h5, by rw [hP]; omega, ?_⟩
  rw [haddr1, haddr2]
  rw [hP]
  omega

/-- Claim C1 witness: two translation faults at IPAs 0x90000 and 0xA0000
(HPFAR values 0x900 and 0xA00) against a fresh stage-2 table and a
page-aligned allocator, applied through the theorem. -/
theorem claim_C1_witness :
    guestAlloc stC1.pt stC1.alloc 0x90000 PagePerm.RWX =
      some (0x200000, ptC1a, alC1a) ∧
    handleLowerElSynchronous synC1 0 0x900 stC1 memZero =
      some (HOutcome.lazy, ⟨ptC1a, alC1a, zeroTrapFrame⟩, memZero) ∧
    (∀ o st2 mem2,
      handleLowerElSynchronous synC1 0 0x900 ⟨ptC1a, alC1a, zeroTrapFrame⟩ memZero =
        some (o, st2, mem2) →
      o ≠ HOutcome.lazy ∧ st2.pt = ptC1a ∧ st2.alloc = alC1a) ∧
    guestAlloc ptC1a alC1a 0xA0000 PagePerm.RWX = some (0x210000, ptC1b, alC1b) ∧
    handleLowerElSynchronous synC1 0 0xA00 ⟨ptC1a, alC1a, zeroTrapFrame⟩ memZero =
      some (HOutcome.lazy, ⟨ptC1b, alC1b, zeroTrapFrame⟩, memZero) ∧
    (0x210000 : Nat) ≠ 0x200000 ∧
    getField (stage2_l3pte 0x210000) 16 32 <<< PAGE_ALIGN ≠
      getField (stage2_l3pte 0x200000) 16 32 <<< PAGE_ALIGN :=
  claim_C1 synC1 synC1 Fault.Translation Fault.Translation 3 3 0 0 0x900 0xA00
    stC1 memZero 0x90000 0xA0000
    rfl (Or.inl rfl) (by decide) (by decide)
    rfl (Or.inl rfl) (by decide) (by decide)
    (by decide)
    (by rw [show stC1.pt.entries = List.replicate 16384 0 from rfl, List.length_replicate])
    (by decide) (by decide) (by decide)
    (by decide) (by decide) (by decide) (by decide)

end RustosHv
